import Mathlib

/-!
# Verification development for the hgsl / rpmb / virtio-video sources

Shallow embedding of

* `drivers/soc/qcom/hgsl/hgsl.h` (wraparound-safe timestamp comparison, the
  timeline and fence records),
* `drivers/char/rpmb/core.c` (command sequence, capacity query, lookup by type),
* `drivers/media/virtio/virtio_video_helpers.c` (conversion tables),

followed by the theorems about them.  Unsigned 32-bit values are natural
numbers; every place where C arithmetic wraps carries an explicit `% 2^32`.
-/

namespace Hgsl

/-! ## hgsl.h : timestamp comparison -/

/-- Number of values of a `uint32_t`. -/
def U32_MOD : Nat := 2 ^ 32

/-- Conversion of an integer argument to `uint32_t`. -/
def to_u32 (x : Nat) : Nat := x % U32_MOD

/-- Subtraction of two `uint32_t` values, `a - b` in C: the result wraps
modulo `2^32`. -/
def u32_sub (a b : Nat) : Nat := (to_u32 a + U32_MOD - to_u32 b) % U32_MOD

/-- The function-local constant `TIMESTAMP_WINDOW` of `hgsl_ts_ge`. -/
def TIMESTAMP_WINDOW : Nat := 0x80000000

/-- The inline function `hgsl_ts_ge` of hgsl.h, lines 78-83:
`return (a - b) < TIMESTAMP_WINDOW;` on `uint32_t` operands. -/
def hgsl_ts_ge (a b : Nat) : Bool := decide (u32_sub a b < TIMESTAMP_WINDOW)

/-! ## hgsl.h : timelines and fences

hgsl.h declares the records and the prototypes of the timeline operations;
their bodies (hgsl_sync.c) are not among the sources.  The operations below
are modelled from sections 3, 4.2, 4.3 and 4.4 of the specification, over
the records of hgsl.h. -/

/-- Modelled from the spec: the state of a Fence (section 3),
"unsignaled, signaled, signaled-with-error", held in C by the embedded
`struct dma_fence`. -/
inductive fence_state where
  | unsignaled
  | signaled
  | signaled_with_error
  deriving DecidableEq, Repr

/-- Modelled from the spec: outcomes of section 7 that the modelled
operations return. -/
inductive hgsl_error where
  | NotFound
  | Gone
  | InvalidArgument
  deriving DecidableEq, Repr

/-- The record `struct hgsl_hsync_fence` (hgsl.h, lines 117-124): the fields
the modelled operations read or write.  `fence` is the state of the embedded
`struct dma_fence`, `context_id` tags the owning timeline, `ts` is the target
timestamp. -/
structure hgsl_hsync_fence where
  fence : fence_state
  context_id : Nat
  ts : Nat
  deriving DecidableEq, Repr

/-- The record `struct hgsl_hsync_timeline` (hgsl.h, lines 95-105):
`fence_context`, `fence_list` (the pending fences, in list order) and
`last_ts`.  `destroyed` is the destroying/destroyed flag of section 3 of the
specification, which hgsl.h keeps in the owning `struct hgsl_context`
(`in_destroy`, `destroyed`). -/
structure hgsl_hsync_timeline where
  fence_context : Nat
  fence_list : List hgsl_hsync_fence
  last_ts : Nat
  destroyed : Bool
  deriving DecidableEq, Repr

/-- Modelled from the spec: the state transition of a fence that is signaled
(section 4.2, "state -> signaled"). -/
def hsync_fence_signal (f : hgsl_hsync_fence) : hgsl_hsync_fence :=
  { f with fence := fence_state.signaled }

/-- Modelled from the spec: the scan of the pending list inside advance
(section 4.2): "for every Fence with is_at_or_after(last_ts, fence.target_ts)
true, detach it from the list and signal it".  Returns the fences left on the
list and the fences signaled, both in list order.  The body of
`hgsl_hsync_timeline_signal` is in hgsl_sync.c, which is missing. -/
def hsync_scan (last_ts : Nat) :
    List hgsl_hsync_fence → List hgsl_hsync_fence × List hgsl_hsync_fence
  | [] => ([], [])
  | f :: rest =>
    let r := hsync_scan last_ts rest
    if hgsl_ts_ge last_ts f.ts then (r.1, hsync_fence_signal f :: r.2)
    else (f :: r.1, r.2)

/-- Modelled from the spec: `hgsl_hsync_timeline_signal` (prototype at hgsl.h,
lines 153-154; body in the missing hgsl_sync.c), the advance of section 4.2:
"if is_at_or_after(new_ts, last_ts) is false, the call is a silent no-op.
Otherwise set last_ts = new_ts; then scan the pending list".  Returns the
timeline afterwards and the fences the call signaled. -/
def hgsl_hsync_timeline_signal (timeline : hgsl_hsync_timeline) (ts : Nat) :
    hgsl_hsync_timeline × List hgsl_hsync_fence :=
  if hgsl_ts_ge ts timeline.last_ts then
    let r := hsync_scan (to_u32 ts) timeline.fence_list
    ({ timeline with last_ts := to_u32 ts, fence_list := r.1 }, r.2)
  else (timeline, [])

/-- Modelled from the spec: `hgsl_hsync_fence_create` (prototype at hgsl.h,
lines 147-149; body in the missing hgsl_sync.c), the create_fence of section
4.3: fails with "timeline gone" on a timeline being destroyed; otherwise the
fence is bound to the timeline's context id with the given target, returned
already signaled and not inserted when the target is reached, and inserted
(at the tail of the pending list) otherwise. -/
def hgsl_hsync_fence_create (timeline : hgsl_hsync_timeline) (ts : Nat) :
    Except hgsl_error hgsl_hsync_fence × hgsl_hsync_timeline :=
  if timeline.destroyed then (Except.error hgsl_error.Gone, timeline)
  else
    let f : hgsl_hsync_fence :=
      { fence := fence_state.unsignaled,
        context_id := timeline.fence_context,
        ts := to_u32 ts }
    if hgsl_ts_ge timeline.last_ts ts then
      (Except.ok (hsync_fence_signal f), timeline)
    else
      (Except.ok f, { timeline with fence_list := timeline.fence_list ++ [f] })

/-- Modelled from the spec: a run of advance calls on one timeline, in order
(section 8, "any sequence of advance calls with timestamps t1, t2, ..."). -/
def hsync_signal_all (timeline : hgsl_hsync_timeline) :
    List Nat → hgsl_hsync_timeline
  | [] => timeline
  | t :: rest => hsync_signal_all (hgsl_hsync_timeline_signal timeline t).1 rest

/-- The record `struct hgsl_isync_fence` (hgsl.h, lines 138-144). -/
structure hgsl_isync_fence where
  fence : fence_state
  ts : Nat
  deriving DecidableEq, Repr

/-- The record `struct hgsl_isync_timeline` (hgsl.h, lines 126-136). -/
structure hgsl_isync_timeline where
  id : Nat
  fence_list : List hgsl_isync_fence
  context : Nat
  last_ts : Nat
  deriving DecidableEq, Repr

/-- The record `struct hgsl_priv` (hgsl.h, lines 65-75): the id-keyed table
`isync_timeline_idr` of the process, as the list of its live timelines. -/
structure hgsl_priv where
  isync_timeline_idr : List hgsl_isync_timeline
  deriving DecidableEq, Repr

/-- Modelled from the spec: signaling one isync fence. -/
def isync_fence_signal (f : hgsl_isync_fence) : hgsl_isync_fence :=
  { f with fence := fence_state.signaled }

/-- Modelled from the spec: the pending-list scan of advance (section 4.2) on
an isync timeline ("identical Timeline/Fence mechanics", section 4.4). -/
def isync_scan (last_ts : Nat) :
    List hgsl_isync_fence → List hgsl_isync_fence × List hgsl_isync_fence
  | [] => ([], [])
  | f :: rest =>
    let r := isync_scan last_ts rest
    if hgsl_ts_ge last_ts f.ts then (r.1, isync_fence_signal f :: r.2)
    else (f :: r.1, r.2)

/-- Modelled from the spec: advance (section 4.2) on an isync timeline. -/
def isync_timeline_forward (timeline : hgsl_isync_timeline) (ts : Nat) :
    hgsl_isync_timeline :=
  if hgsl_ts_ge ts timeline.last_ts then
    { timeline with
      last_ts := to_u32 ts,
      fence_list := (isync_scan (to_u32 ts) timeline.fence_list).1 }
  else timeline

/-- Modelled from the spec: the registry lookup of section 4.5,
"lookup(id) -> Timeline | not-found". -/
def isync_timeline_get (priv : hgsl_priv) (timeline_id : Nat) :
    Option hgsl_isync_timeline :=
  priv.isync_timeline_idr.find? (fun t => t.id == timeline_id)

/-- Modelled from the spec: `hgsl_isync_forward` (prototype at hgsl.h, lines
167-168; body in the missing hgsl_sync.c): "forward(id, ts) is exactly advance
with the wraparound-safe no-op-if-stale rule" (section 4.4), on the timeline
the registry holds under `timeline_id`; an unknown id is not-found. -/
def hgsl_isync_forward (priv : hgsl_priv) (timeline_id : Nat) (ts : Nat) :
    Except hgsl_error hgsl_priv :=
  match isync_timeline_get priv timeline_id with
  | none => Except.error hgsl_error.NotFound
  | some _ =>
    Except.ok
      { priv with
        isync_timeline_idr :=
          priv.isync_timeline_idr.map
            (fun t => if t.id == timeline_id then isync_timeline_forward t ts else t) }

/-- Modelled from the spec: a run of forward calls on the timeline
`timeline_id`, in order; stops at the first call that fails. -/
def isync_forward_all (priv : hgsl_priv) (timeline_id : Nat) :
    List Nat → Except hgsl_error hgsl_priv
  | [] => Except.ok priv
  | t :: rest =>
    match hgsl_isync_forward priv timeline_id t with
    | Except.error e => Except.error e
    | Except.ok p => isync_forward_all p timeline_id rest

/-- Modelled from the spec: create_fence (section 4.3) on an isync timeline,
with the optional target of section 4.4: "Fence creation may omit an
explicit target timestamp ... the implementation must assign it last_ts + 1
(in wraparound space) at creation time in that case".  A fence whose target
is already reached is returned signaled and not inserted; otherwise it is
inserted at the tail of the pending list. -/
def isync_timeline_fence_create (timeline : hgsl_isync_timeline) (ts : Nat)
    (ts_is_valid : Bool) : hgsl_isync_fence × hgsl_isync_timeline :=
  let target := if ts_is_valid then to_u32 ts else to_u32 (timeline.last_ts + 1)
  let f : hgsl_isync_fence := { fence := fence_state.unsignaled, ts := target }
  if hgsl_ts_ge timeline.last_ts target then (isync_fence_signal f, timeline)
  else (f, { timeline with fence_list := timeline.fence_list ++ [f] })

/-- Modelled from the spec: `hgsl_isync_fence_create` (prototype at hgsl.h,
lines 163-164; body in the missing hgsl_sync.c): create_fence on the timeline
the registry holds under `timeline_id`, not-found for an unknown id.  The
fence itself stands for the handle the C function stores in `fence_fd`. -/
def hgsl_isync_fence_create (priv : hgsl_priv) (timeline_id : Nat) (ts : Nat)
    (ts_is_valid : Bool) : Except hgsl_error (hgsl_isync_fence × hgsl_priv) :=
  match isync_timeline_get priv timeline_id with
  | none => Except.error hgsl_error.NotFound
  | some timeline =>
    Except.ok
      ((isync_timeline_fence_create timeline ts ts_is_valid).1,
       { priv with
         isync_timeline_idr :=
           priv.isync_timeline_idr.map
             (fun t =>
               if t.id == timeline_id then
                 (isync_timeline_fence_create t ts ts_is_valid).2
               else t) })

/-- The timeline of the in-order scenario of section 8: a fresh timeline
(`last_ts = 0`, nothing pending) on which fences with targets 10, 20 and 30
are created in that order. -/
def timeline_10_20_30 : hgsl_hsync_timeline :=
  (hgsl_hsync_fence_create
    (hgsl_hsync_fence_create
      (hgsl_hsync_fence_create ⟨7, [], 0, false⟩ 10).2 20).2 30).2

/-- The greatest element of a list of timestamps under `hgsl_ts_ge`: a member
of the list that is at or after every member. -/
def is_ts_max (m : Nat) (seen : List Nat) : Prop :=
  m ∈ seen ∧ ∀ t ∈ seen, hgsl_ts_ge m t = true

/-- Every pending fence of the timeline is still ahead of `last_ts`: the
invariant of section 3 ("fences whose target is already reached are signaled
immediately at creation, never queued"). -/
def pending_unreached (timeline : hgsl_hsync_timeline) : Prop :=
  ∀ f ∈ timeline.fence_list, hgsl_ts_ge timeline.last_ts f.ts = false

end Hgsl

namespace Rpmb

/-! ## drivers/char/rpmb/core.c -/

/-- Constants and macros that core.c takes from headers that are not among
the sources (`include/linux/rpmb.h`, the errno and byte-order headers).  The
functions below take them as a parameter. -/
structure rpmb_consts where
  EINVAL : Int
  EOPNOTSUPP : Int
  RPMB_TYPE_ANY : Nat
  RPMB_TYPE_EMMC : Nat
  RPMB_TYPE_MAX : Nat
  RPMB_TYPE_HW : Nat → Nat
  RPMB_READ_DATA : Nat
  cpu_to_be16 : Nat → Nat

/-- The values the constants have in the Linux headers, on a little-endian
CPU: used to evaluate the functions on concrete inputs. -/
def linux_consts : rpmb_consts where
  EINVAL := 22
  EOPNOTSUPP := 95
  RPMB_TYPE_ANY := 0
  RPMB_TYPE_EMMC := 1
  RPMB_TYPE_MAX := 0x103
  RPMB_TYPE_HW := fun t => t % 0x100
  RPMB_READ_DATA := 4
  cpu_to_be16 := fun x => (x % 0x100) * 0x100 + (x / 0x100) % 0x100

/-- The record `struct rpmb_frame_jdec` as core.c uses it: `req_resp` and
`block_count` are the two fields `rpmb_cmd_fixup` touches, both holding the
16-bit value as stored in memory; the other fields are carried along. -/
structure rpmb_frame_jdec where
  stuff : List Nat
  key_mac : List Nat
  data : List Nat
  nonce : List Nat
  write_counter : Nat
  addr : Nat
  block_count : Nat
  result : Nat
  req_resp : Nat
  deriving DecidableEq, Repr

/-- The record `struct rpmb_cmd`: `frames` is the array the pointer
`cmds[i].frames` refers to, so its head is the frame `rpmb_cmd_fixup`
inspects. -/
structure rpmb_cmd where
  flags : Nat
  nframes : Nat
  frames : List rpmb_frame_jdec
  deriving DecidableEq, Repr

/-- The record `struct rpmb_ops`, the operations of a device.  A function
pointer that is NULL is `none`.  `cmd_seq dev target cmds ncmds` returns the
`int` result and the command memory as the device left it;
`get_capacity dev target` returns the `int` result. -/
structure rpmb_ops where
  cmd_seq : Option (Nat → Nat → List rpmb_cmd → Nat → Int × List rpmb_cmd)
  get_capacity : Option (Nat → Nat → Int)
  type : Nat

/-- The record `struct rpmb_dev`: `parent` stands for `dev.parent`; `ops` is
`none` for a NULL pointer. -/
structure rpmb_dev where
  parent : Nat
  ops : Option rpmb_ops
  id : Nat
  target : Nat

/-- One invocation of `ops->cmd_seq`, with the arguments it received. -/
structure cmd_seq_call where
  dev : Nat
  target : Nat
  cmds : List rpmb_cmd
  ncmds : Nat
  deriving DecidableEq, Repr

/-- What a call of `rpmb_cmd_seq` leaves behind: the returned `int`, the
caller's command memory (`none` for a NULL `cmds`), and the invocations of
the device operation it made. -/
structure cmd_seq_result where
  ret : Int
  cmds : Option (List rpmb_cmd)
  dev_calls : List cmd_seq_call

/-- Body of the loop of `rpmb_cmd_fixup` (core.c, lines 59-64) for one
command: `frame = cmds[i].frames`; when `frame->req_resp` equals
`cpu_to_be16(RPMB_READ_DATA)` its `block_count` is set to 0.  Every command
is taken to have a first frame, which the C code dereferences
unconditionally. -/
def rpmb_cmd_fixup_one (K : rpmb_consts) (cmd : rpmb_cmd) : rpmb_cmd :=
  match cmd.frames with
  | [] => cmd
  | frame :: more =>
    if frame.req_resp = K.cpu_to_be16 K.RPMB_READ_DATA then
      { cmd with frames := { frame with block_count := 0 } :: more }
    else cmd

/-- The loop `for (i = 0; i < ncmds; i++)` of `rpmb_cmd_fixup` over the
command array. -/
def rpmb_cmd_fixup_loop (K : rpmb_consts) : List rpmb_cmd → Nat → List rpmb_cmd
  | [], _ => []
  | cmds, 0 => cmds
  | cmd :: rest, n + 1 => rpmb_cmd_fixup_one K cmd :: rpmb_cmd_fixup_loop K rest n

/-- The function `rpmb_cmd_fixup` (core.c, lines 44-66), called with
`rdev->ops` known to be non-NULL: returns the command memory afterwards. -/
def rpmb_cmd_fixup (K : rpmb_consts) (ops : rpmb_ops) (cmds : List rpmb_cmd)
    (ncmds : Nat) : List rpmb_cmd :=
  if K.RPMB_TYPE_HW ops.type ≠ K.RPMB_TYPE_EMMC then cmds
  else rpmb_cmd_fixup_loop K cmds ncmds

/-- The function `rpmb_cmd_seq` (core.c, lines 80-97).  `rdev` and `cmds` are
pointers, `none` when NULL. -/
def rpmb_cmd_seq (K : rpmb_consts) (rdev : Option rpmb_dev)
    (cmds : Option (List rpmb_cmd)) (ncmds : Nat) : cmd_seq_result :=
  match rdev, cmds with
  | none, _ => { ret := -K.EINVAL, cmds := cmds, dev_calls := [] }
  | some _, none => { ret := -K.EINVAL, cmds := cmds, dev_calls := [] }
  | some d, some cs =>
    if ncmds = 0 then { ret := -K.EINVAL, cmds := cmds, dev_calls := [] }
    else
      match d.ops with
      | none => { ret := -K.EOPNOTSUPP, cmds := cmds, dev_calls := [] }
      | some ops =>
        match ops.cmd_seq with
        | none => { ret := -K.EOPNOTSUPP, cmds := cmds, dev_calls := [] }
        | some op =>
          let fixed := rpmb_cmd_fixup K ops cs ncmds
          let r := op d.parent d.target fixed ncmds
          { ret := r.1, cmds := some r.2,
            dev_calls := [{ dev := d.parent, target := d.target,
                            cmds := fixed, ncmds := ncmds }] }

/-- The function `rpmb_get_capacity` (core.c, lines 110-124). -/
def rpmb_get_capacity (K : rpmb_consts) (rdev : Option rpmb_dev) : Int :=
  match rdev with
  | none => -K.EINVAL
  | some d =>
    match d.ops with
    | none => -K.EOPNOTSUPP
    | some ops =>
      match ops.get_capacity with
      | none => -K.EOPNOTSUPP
      | some op => op d.parent d.target

/-- A returned `struct rpmb_dev *`: an `ERR_PTR` value, NULL, or a device. -/
inductive rpmb_dev_ptr where
  | err (e : Int)
  | null
  | dev (d : rpmb_dev)

/-- The driver-core function `class_find_device` on the devices of
`rpmb_class`, in registration order: the first device for which `fn`
returns non-zero, or NULL.  Its body (drivers/base/class.c) is not among the
sources. -/
def class_find_device {α : Type} (devices : List rpmb_dev) (data : α)
    (fn : rpmb_dev → α → Bool) : Option rpmb_dev :=
  match devices with
  | [] => none
  | d :: rest => if fn d data then some d else class_find_device rest data fn

/-- The function `rpmb_dev_find_device` (core.c, lines 149-159). -/
def rpmb_dev_find_device {α : Type} (devices : List rpmb_dev) (data : α)
    (fn : rpmb_dev → α → Bool) : rpmb_dev_ptr :=
  match class_find_device devices data fn with
  | some d => rpmb_dev_ptr.dev d
  | none => rpmb_dev_ptr.null

/-- The function `match_by_type` (core.c, lines 161-167):
`*type == RPMB_TYPE_ANY || rdev->ops->type == *type`.  Registered devices
have `ops` (`rpmb_dev_register` refuses a NULL `ops`); a device without
them matches no specific type here. -/
def match_by_type (K : rpmb_consts) (rdev : rpmb_dev) (type : Nat) : Bool :=
  type == K.RPMB_TYPE_ANY ||
    (match rdev.ops with
     | some ops => ops.type == type
     | none => false)

/-- The function `rpmb_dev_get_by_type` (core.c, lines 179-185); `devices`
are the devices registered in `rpmb_class`. -/
def rpmb_dev_get_by_type (K : rpmb_consts) (devices : List rpmb_dev)
    (type : Nat) : rpmb_dev_ptr :=
  if type > K.RPMB_TYPE_MAX then rpmb_dev_ptr.err (-K.EINVAL)
  else rpmb_dev_find_device devices type (match_by_type K)

/-- A device operation that accepts every command sequence and leaves the
commands as it received them. -/
def sample_cmd_seq_op : Nat → Nat → List rpmb_cmd → Nat → Int × List rpmb_cmd :=
  fun _ _ cmds _ => (0, cmds)

/-- Operations of a simulated eMMC device (`RPMB_TYPE_SIM | RPMB_TYPE_EMMC`
with the Linux values). -/
def sample_emmc_ops : rpmb_ops :=
  { cmd_seq := some sample_cmd_seq_op, get_capacity := none, type := 0x101 }

/-- A device with the operations `sample_emmc_ops`. -/
def sample_emmc_dev : rpmb_dev :=
  { parent := 10, ops := some sample_emmc_ops, id := 0, target := 0 }

/-- Two commands of one frame each, both with a stored `block_count` of
0x0100: a data read request (`req_resp` 0x0400, big-endian 4, as stored on a
little-endian CPU) and a data write request (`req_resp` 0x0300). -/
def sample_cmds : List rpmb_cmd :=
  [ { flags := 1, nframes := 1,
      frames := [⟨[], [], [], [], 0, 0, 0x0100, 0, 0x0400⟩] },
    { flags := 1, nframes := 1,
      frames := [⟨[], [], [], [], 0, 0, 0x0100, 0, 0x0300⟩] } ]

/-- A command array the C code can walk for `ncmds` commands: it holds at
least `ncmds` commands, and each of the first `ncmds` has a first frame
(`rpmb_cmd_fixup` reads `cmds[i].frames->req_resp` for every `i < ncmds`). -/
def cmds_well_formed (cmds : List rpmb_cmd) (ncmds : Nat) : Prop :=
  ncmds ≤ cmds.length ∧ ∀ c ∈ cmds.take ncmds, c.frames ≠ []

/-- Operations of an eMMC device as `rpmb_dev_register` accepts them: both
operations present, type `RPMB_TYPE_EMMC` (1 with the Linux values); the
capacity is 32 units. -/
def sample_registered_ops : rpmb_ops :=
  { cmd_seq := some sample_cmd_seq_op, get_capacity := some (fun _ _ => 32), type := 1 }

/-- A device with the operations `sample_registered_ops`. -/
def sample_registered_dev : rpmb_dev :=
  { parent := 10, ops := some sample_registered_ops, id := 0, target := 0 }

/-- A device whose operations lack `cmd_seq`. -/
def sample_no_cmd_seq_dev : rpmb_dev :=
  { parent := 10,
    ops := some { cmd_seq := none, get_capacity := some (fun _ _ => 32), type := 1 },
    id := 1, target := 0 }

end Rpmb

namespace VirtioVideo

/-! ## drivers/media/virtio/virtio_video_helpers.c -/

/-- The record `struct virtio_video_convert_table` (lines 22-25). -/
structure virtio_video_convert_table where
  virtio_value : Nat
  v4l2_value : Nat
  deriving DecidableEq, Repr

/-- The format constants of `virtio_video.h` and `videodev2.h` that
`format_table` names; the headers are not among the sources, so the table
takes the values as a parameter. -/
structure format_consts where
  VIRTIO_VIDEO_FORMAT_ARGB8888 : Nat
  VIRTIO_VIDEO_FORMAT_BGRA8888 : Nat
  VIRTIO_VIDEO_FORMAT_RGBA8888 : Nat
  VIRTIO_VIDEO_FORMAT_NV12 : Nat
  VIRTIO_VIDEO_FORMAT_YUV420 : Nat
  VIRTIO_VIDEO_FORMAT_YVU420 : Nat
  VIRTIO_VIDEO_FORMAT_YUV422 : Nat
  VIRTIO_VIDEO_FORMAT_MPEG2 : Nat
  VIRTIO_VIDEO_FORMAT_MPEG4 : Nat
  VIRTIO_VIDEO_FORMAT_H264 : Nat
  VIRTIO_VIDEO_FORMAT_HEVC : Nat
  VIRTIO_VIDEO_FORMAT_VP8 : Nat
  VIRTIO_VIDEO_FORMAT_VP9 : Nat
  V4L2_PIX_FMT_ARGB32 : Nat
  V4L2_PIX_FMT_ABGR32 : Nat
  V4L2_PIX_FMT_RGB32 : Nat
  V4L2_PIX_FMT_NV12 : Nat
  V4L2_PIX_FMT_YUV420 : Nat
  V4L2_PIX_FMT_YVU420 : Nat
  V4L2_PIX_FMT_YUYV : Nat
  V4L2_PIX_FMT_MPEG2 : Nat
  V4L2_PIX_FMT_MPEG4 : Nat
  V4L2_PIX_FMT_H264 : Nat
  V4L2_PIX_FMT_HEVC : Nat
  V4L2_PIX_FMT_VP8 : Nat
  V4L2_PIX_FMT_VP9 : Nat

/-- The macro `v4l2_fourcc(a, b, c, d)` of videodev2.h. -/
def v4l2_fourcc (a b c d : Char) : Nat :=
  a.toNat + b.toNat * 2 ^ 8 + c.toNat * 2 ^ 16 + d.toNat * 2 ^ 24

/-- Sample values for the constants: the V4L2 codes of videodev2.h, and
consecutive enumerators for the virtio formats (raw formats from 1, coded
formats from 0x1000).  Used to evaluate the functions on concrete inputs. -/
def sample_consts : format_consts where
  VIRTIO_VIDEO_FORMAT_ARGB8888 := 1
  VIRTIO_VIDEO_FORMAT_BGRA8888 := 2
  VIRTIO_VIDEO_FORMAT_RGBA8888 := 3
  VIRTIO_VIDEO_FORMAT_NV12 := 4
  VIRTIO_VIDEO_FORMAT_YUV420 := 5
  VIRTIO_VIDEO_FORMAT_YVU420 := 6
  VIRTIO_VIDEO_FORMAT_YUV422 := 7
  VIRTIO_VIDEO_FORMAT_MPEG2 := 0x1000
  VIRTIO_VIDEO_FORMAT_MPEG4 := 0x1001
  VIRTIO_VIDEO_FORMAT_H264 := 0x1002
  VIRTIO_VIDEO_FORMAT_HEVC := 0x1003
  VIRTIO_VIDEO_FORMAT_VP8 := 0x1004
  VIRTIO_VIDEO_FORMAT_VP9 := 0x1005
  V4L2_PIX_FMT_ARGB32 := v4l2_fourcc 'B' 'A' '2' '4'
  V4L2_PIX_FMT_ABGR32 := v4l2_fourcc 'A' 'R' '2' '4'
  V4L2_PIX_FMT_RGB32 := v4l2_fourcc 'R' 'G' 'B' '4'
  V4L2_PIX_FMT_NV12 := v4l2_fourcc 'N' 'V' '1' '2'
  V4L2_PIX_FMT_YUV420 := v4l2_fourcc 'Y' 'U' '1' '2'
  V4L2_PIX_FMT_YVU420 := v4l2_fourcc 'Y' 'V' '1' '2'
  V4L2_PIX_FMT_YUYV := v4l2_fourcc 'Y' 'U' 'Y' 'V'
  V4L2_PIX_FMT_MPEG2 := v4l2_fourcc 'M' 'P' 'G' '2'
  V4L2_PIX_FMT_MPEG4 := v4l2_fourcc 'M' 'P' 'G' '4'
  V4L2_PIX_FMT_H264 := v4l2_fourcc 'H' '2' '6' '4'
  V4L2_PIX_FMT_HEVC := v4l2_fourcc 'H' 'E' 'V' 'C'
  V4L2_PIX_FMT_VP8 := v4l2_fourcc 'V' 'P' '8' '0'
  V4L2_PIX_FMT_VP9 := v4l2_fourcc 'V' 'P' '9' '0'

/-- The array `format_table` (lines 125-140), with its terminating
`{ 0 }` row. -/
def format_table (K : format_consts) : List virtio_video_convert_table :=
  [ ⟨K.VIRTIO_VIDEO_FORMAT_ARGB8888, K.V4L2_PIX_FMT_ARGB32⟩,
    ⟨K.VIRTIO_VIDEO_FORMAT_BGRA8888, K.V4L2_PIX_FMT_ABGR32⟩,
    ⟨K.VIRTIO_VIDEO_FORMAT_RGBA8888, K.V4L2_PIX_FMT_RGB32⟩,
    ⟨K.VIRTIO_VIDEO_FORMAT_NV12, K.V4L2_PIX_FMT_NV12⟩,
    ⟨K.VIRTIO_VIDEO_FORMAT_YUV420, K.V4L2_PIX_FMT_YUV420⟩,
    ⟨K.VIRTIO_VIDEO_FORMAT_YVU420, K.V4L2_PIX_FMT_YVU420⟩,
    ⟨K.VIRTIO_VIDEO_FORMAT_YUV422, K.V4L2_PIX_FMT_YUYV⟩,
    ⟨K.VIRTIO_VIDEO_FORMAT_MPEG2, K.V4L2_PIX_FMT_MPEG2⟩,
    ⟨K.VIRTIO_VIDEO_FORMAT_MPEG4, K.V4L2_PIX_FMT_MPEG4⟩,
    ⟨K.VIRTIO_VIDEO_FORMAT_H264, K.V4L2_PIX_FMT_H264⟩,
    ⟨K.VIRTIO_VIDEO_FORMAT_HEVC, K.V4L2_PIX_FMT_HEVC⟩,
    ⟨K.VIRTIO_VIDEO_FORMAT_VP8, K.V4L2_PIX_FMT_VP8⟩,
    ⟨K.VIRTIO_VIDEO_FORMAT_VP9, K.V4L2_PIX_FMT_VP9⟩,
    ⟨0, 0⟩ ]

/-- The loop of `virtio_video_format_to_v4l2`: the `v4l2_value` of the first
row whose `virtio_value` equals the key, 0 past the end of the array. -/
def lookup_by_virtio : List virtio_video_convert_table → Nat → Nat
  | [], _ => 0
  | row :: rest, key =>
    if row.virtio_value = key then row.v4l2_value else lookup_by_virtio rest key

/-- The loop of `virtio_video_v4l2_format_to_virtio`: the `virtio_value` of
the first row whose `v4l2_value` equals the key, 0 past the end. -/
def lookup_by_v4l2 : List virtio_video_convert_table → Nat → Nat
  | [], _ => 0
  | row :: rest, key =>
    if row.v4l2_value = key then row.virtio_value else lookup_by_v4l2 rest key

/-- The function `virtio_video_format_to_v4l2` (lines 142-152). -/
def virtio_video_format_to_v4l2 (K : format_consts) (format : Nat) : Nat :=
  lookup_by_virtio (format_table K) format

/-- The function `virtio_video_v4l2_format_to_virtio` (lines 154-164). -/
def virtio_video_v4l2_format_to_virtio (K : format_consts) (v4l2_format : Nat) : Nat :=
  lookup_by_v4l2 (format_table K) v4l2_format

/-! ### Format lists -/

/-- The member `desc` of `struct video_format`: the fields the helpers read.
`mask` is the 64-bit set of positions in the opposite format list this
format is compatible with; `format` is the format code. -/
structure virtio_video_format_desc where
  mask : Nat
  format : Nat
  num_frames : Nat
  deriving DecidableEq, Repr

/-- The record `struct video_format`, an entry of a format list. -/
structure video_format where
  desc : virtio_video_format_desc
  deriving DecidableEq, Repr

/-- The record `struct video_format_info`: the field the helpers below
read. -/
structure video_format_info where
  fourcc_format : Nat
  deriving DecidableEq, Repr

/-- The record `struct virtio_video_device`: its two format lists, in list
order. -/
structure virtio_video_device where
  input_fmt_list : List video_format
  output_fmt_list : List video_format
  deriving DecidableEq, Repr

/-- The record `struct virtio_video_stream`: `video_dev` stands for the
device `to_virtio_vd(stream->video_dev)` yields. -/
structure virtio_video_stream where
  video_dev : virtio_video_device
  in_info : video_format_info
  out_info : video_format_info
  deriving DecidableEq, Repr

/-- Width of `unsigned long` on the 64-bit target. -/
def BITS_PER_LONG : Nat := 64

/-- The kernel bit operation `test_bit(nr, &mask)` on the single
`unsigned long` variable `mask`: bit `nr` of the word.  For
`nr ≥ BITS_PER_LONG` the C code would read past the variable; no bit is
found there. -/
def test_bit (nr : Nat) (mask : Nat) : Bool :=
  decide (nr < BITS_PER_LONG ∧ (mask % 2 ^ BITS_PER_LONG) / 2 ^ nr % 2 = 1)

/-- The function `virtio_video_find_video_format` (lines 215-226). -/
def virtio_video_find_video_format : List video_format → Nat → Option video_format
  | [], _ => none
  | fmt :: rest, format =>
    if fmt.desc.format = format then some fmt
    else virtio_video_find_video_format rest format

/-- The loop of `virtio_video_find_compatible_output_format` (lines
409-417) and of its input twin (lines 438-446), from the entry reached with
counter `bit_num` on: the first entry whose bit is set in `mask` and whose
`desc.format` is the requested one; `bit_num` goes up by one per entry. -/
def find_compatible_loop (mask : Nat) (fourcc_format : Nat) :
    List video_format → Nat → Option video_format
  | [], _ => none
  | fmt :: rest, bit_num =>
    if test_bit bit_num mask then
      if fmt.desc.format = fourcc_format then some fmt
      else find_compatible_loop mask fourcc_format rest (bit_num + 1)
    else find_compatible_loop mask fourcc_format rest (bit_num + 1)

/-- The function `virtio_video_find_compatible_output_format` (lines
394-420). -/
def virtio_video_find_compatible_output_format (stream : virtio_video_stream)
    (fourcc_format : Nat) : Option video_format :=
  match virtio_video_find_video_format stream.video_dev.input_fmt_list
      stream.in_info.fourcc_format with
  | none => none
  | some fmt =>
    find_compatible_loop fmt.desc.mask fourcc_format
      stream.video_dev.output_fmt_list 0

/-- The function `virtio_video_find_compatible_input_format` (lines
423-449). -/
def virtio_video_find_compatible_input_format (stream : virtio_video_stream)
    (fourcc_format : Nat) : Option video_format :=
  match virtio_video_find_video_format stream.video_dev.output_fmt_list
      stream.out_info.fourcc_format with
  | none => none
  | some fmt =>
    find_compatible_loop fmt.desc.mask fourcc_format
      stream.video_dev.input_fmt_list 0

/-- The first entry of a format list with a given format code: `f` sits at
some position and no earlier entry has the code. -/
def first_with_format (l : List video_format) (format : Nat) (f : video_format) : Prop :=
  ∃ i, l[i]? = some f ∧ f.desc.format = format ∧
    ∀ (j : Nat) (g : video_format), j < i → l[j]? = some g → g.desc.format ≠ format

/-- Position `k` of the list holds `fmt`, bit `k` of `mask` is set and `fmt`
has the requested format code. -/
def compatible_at (l : List video_format) (mask req k : Nat) (fmt : video_format) : Prop :=
  l[k]? = some fmt ∧ mask / 2 ^ k % 2 = 1 ∧ fmt.desc.format = req

/-- The result the two lookups are to give, in words: nothing when the
current format code `cur` is not in the list `src`; otherwise, with the mask
of the first entry of `src` having that code, the entry at the first
compatible position of `dst`, and nothing when there is no such position. -/
def compatible_result (src dst : List video_format) (cur req : Nat)
    (result : Option video_format) : Prop :=
  ((∀ g ∈ src, g.desc.format ≠ cur) → result = none) ∧
  (∀ f0 : video_format, first_with_format src cur f0 →
    (∀ (k : Nat) (fmt : video_format), compatible_at dst f0.desc.mask req k fmt →
      (∀ (j : Nat) (g : video_format), j < k → ¬ compatible_at dst f0.desc.mask req j g) →
      result = some fmt) ∧
    ((∀ (k : Nat) (fmt : video_format), ¬ compatible_at dst f0.desc.mask req k fmt) →
      result = none))

/-- A device with two input and three output formats, and a stream on it:
the input format 0x1002 is compatible with output positions 1 and 2. -/
def sample_stream : virtio_video_stream :=
  { video_dev :=
      { input_fmt_list := [⟨⟨0x1, 0x1001, 0⟩⟩, ⟨⟨0x6, 0x1002, 0⟩⟩],
        output_fmt_list := [⟨⟨0x3, 4, 0⟩⟩, ⟨⟨0x2, 5, 0⟩⟩, ⟨⟨0x2, 4, 1⟩⟩] },
    in_info := ⟨0x1002⟩,
    out_info := ⟨5⟩ }

end VirtioVideo

/-! # Theorems -/

namespace Hgsl

/-- Unfolding of `hgsl_ts_ge` into arithmetic on natural numbers. -/
theorem hgsl_ts_ge_iff (a b : Nat) :
    hgsl_ts_ge a b = true ↔ (a % 2 ^ 32 + 2 ^ 32 - b % 2 ^ 32) % 2 ^ 32 < 2 ^ 31 := by
  simp [hgsl_ts_ge, u32_sub, to_u32, U32_MOD, TIMESTAMP_WINDOW]

/-- Unfolding of a false `hgsl_ts_ge`. -/
theorem hgsl_ts_ge_false_iff (a b : Nat) :
    hgsl_ts_ge a b = false ↔ 2 ^ 31 ≤ (a % 2 ^ 32 + 2 ^ 32 - b % 2 ^ 32) % 2 ^ 32 := by
  simp [hgsl_ts_ge, u32_sub, to_u32, U32_MOD, TIMESTAMP_WINDOW]

/-- C1: for 32-bit `a` and `b`, `hgsl_ts_ge a b` holds exactly when
`(a - b) mod 2^32 < 2^31`, which is exactly when `a = (b + k) mod 2^32` for
some `k < 2^31`; `hgsl_ts_ge 5 0xFFFFFFFE` is true and `hgsl_ts_ge 0 1` is
false. -/
theorem hgsl_ts_ge_circular (a b : Nat) (ha : a < 2 ^ 32) (hb : b < 2 ^ 32) :
    (hgsl_ts_ge a b = true ↔ ((a : Int) - (b : Int)) % 2 ^ 32 < 2 ^ 31) ∧
    (hgsl_ts_ge a b = true ↔ ∃ k : Nat, k < 2 ^ 31 ∧ a = (b + k) % 2 ^ 32) ∧
    hgsl_ts_ge 5 0xFFFFFFFE = true ∧ hgsl_ts_ge 0 1 = false := by
  refine ⟨?_, ?_, by decide, by decide⟩
  · rw [hgsl_ts_ge_iff]
    omega
  · rw [hgsl_ts_ge_iff]
    constructor
    · intro h
      exact ⟨(a % 2 ^ 32 + 2 ^ 32 - b % 2 ^ 32) % 2 ^ 32, h, by omega⟩
    · rintro ⟨k, hk, rfl⟩
      omega

/-- Witness for C1 at `a = 5`, `b = 0xFFFFFFFE`. -/
theorem hgsl_ts_ge_circular_witness :
    (hgsl_ts_ge 5 0xFFFFFFFE = true ↔
      (((5 : Nat) : Int) - ((0xFFFFFFFE : Nat) : Int)) % 2 ^ 32 < 2 ^ 31) ∧
    (hgsl_ts_ge 5 0xFFFFFFFE = true ↔
      ∃ k : Nat, k < 2 ^ 31 ∧ 5 = (0xFFFFFFFE + k) % 2 ^ 32) ∧
    hgsl_ts_ge 5 0xFFFFFFFE = true ∧ hgsl_ts_ge 0 1 = false :=
  hgsl_ts_ge_circular 5 0xFFFFFFFE (by norm_num) (by norm_num)

/-- C2: the 32-bit comparison agrees with the comparison of untruncated
counters: for natural numbers `A` and `B` less than `2^31` apart,
`hgsl_ts_ge (A mod 2^32) (B mod 2^32)` holds if and only if `B ≤ A`. -/
theorem hgsl_ts_ge_untruncated (A B : Nat)
    (hAB : (A : Int) - (B : Int) < 2 ^ 31) (hBA : (B : Int) - (A : Int) < 2 ^ 31) :
    hgsl_ts_ge (A % 2 ^ 32) (B % 2 ^ 32) = true ↔ B ≤ A := by
  rw [hgsl_ts_ge_iff]
  omega

/-- Witness for C2 across the wrap: `A = 2^32 + 5`, `B = 2^32 - 2`. -/
theorem hgsl_ts_ge_untruncated_witness :
    hgsl_ts_ge ((2 ^ 32 + 5) % 2 ^ 32) ((2 ^ 32 - 2) % 2 ^ 32) = true ↔
      2 ^ 32 - 2 ≤ 2 ^ 32 + 5 :=
  hgsl_ts_ge_untruncated (2 ^ 32 + 5) (2 ^ 32 - 2) (by norm_num) (by norm_num)

/-! ## Advancing a timeline -/

/-- The `last_ts` a call of `hgsl_hsync_timeline_signal` leaves. -/
theorem hsync_signal_last_ts (tl : hgsl_hsync_timeline) (t : Nat) :
    (hgsl_hsync_timeline_signal tl t).1.last_ts =
      if hgsl_ts_ge t tl.last_ts then t % 2 ^ 32 else tl.last_ts := by
  unfold hgsl_hsync_timeline_signal
  split <;> simp [to_u32, U32_MOD]

/-- The `last_ts` a call of `isync_timeline_forward` leaves. -/
theorem isync_forward_last_ts (tl : hgsl_isync_timeline) (t : Nat) :
    (isync_timeline_forward tl t).last_ts =
      if hgsl_ts_ge t tl.last_ts then t % 2 ^ 32 else tl.last_ts := by
  unfold isync_timeline_forward
  split <;> simp [to_u32, U32_MOD]

/-- Inside the window ahead of one base, the comparison is transitive. -/
theorem hgsl_ts_ge_trans_window (base a b c : Nat)
    (ha : a < 2 ^ 32 ∧ hgsl_ts_ge a base = true)
    (hb : b < 2 ^ 32 ∧ hgsl_ts_ge b base = true)
    (hc : c < 2 ^ 32 ∧ hgsl_ts_ge c base = true)
    (hab : hgsl_ts_ge a b = true) (hbc : hgsl_ts_ge b c = true) :
    hgsl_ts_ge a c = true := by
  rw [hgsl_ts_ge_iff] at *
  omega

/-- Inside the window ahead of one base, the comparison is total. -/
theorem hgsl_ts_ge_total_window (base a b : Nat)
    (ha : a < 2 ^ 32 ∧ hgsl_ts_ge a base = true)
    (hb : b < 2 ^ 32 ∧ hgsl_ts_ge b base = true)
    (hab : hgsl_ts_ge a b = false) :
    hgsl_ts_ge b a = true := by
  rw [hgsl_ts_ge_false_iff] at hab
  rw [hgsl_ts_ge_iff] at *
  omega

/-- The comparison is reflexive. -/
theorem hgsl_ts_ge_refl (a : Nat) : hgsl_ts_ge a a = true := by
  rw [hgsl_ts_ge_iff]
  omega

/-- One step of the running maximum: if `m` is the greatest of `x :: rest`
and `x` is the later of `l` and `t`, then `m` is the greatest of
`l :: t :: rest`, everything lying in the window ahead of `base`. -/
theorem is_ts_max_step (base l t x m : Nat) (rest : List Nat)
    (hwin : ∀ u ∈ l :: t :: rest, u < 2 ^ 32 ∧ hgsl_ts_ge u base = true)
    (hx : x = if hgsl_ts_ge t l then t % 2 ^ 32 else l)
    (hm : is_ts_max m (x :: rest)) :
    is_ts_max m (l :: t :: rest) := by
  have hl := hwin l (by simp)
  have ht := hwin t (by simp)
  have htm : t % 2 ^ 32 = t := Nat.mod_eq_of_lt ht.1
  obtain ⟨hmem, hall⟩ := hm
  have hxl : x = l ∨ x = t := by
    rw [hx, htm]
    split <;> simp
  have hxwin : x < 2 ^ 32 ∧ hgsl_ts_ge x base = true := by
    rcases hxl with h | h <;> rw [h] <;> assumption
  have hmwin : m < 2 ^ 32 ∧ hgsl_ts_ge m base = true := by
    rcases List.mem_cons.1 hmem with h | h
    · rw [h]; exact hxwin
    · exact hwin m (by simp [h])
  have hmx : hgsl_ts_ge m x = true := hall x (by simp)
  have hxl2 : hgsl_ts_ge x l = true ∧ hgsl_ts_ge x t = true := by
    rw [hx, htm]
    by_cases hge : hgsl_ts_ge t l = true
    · rw [if_pos hge]
      exact ⟨hge, hgsl_ts_ge_refl t⟩
    · have hf : hgsl_ts_ge t l = false := by simpa using hge
      rw [if_neg hge]
      exact ⟨hgsl_ts_ge_refl l, hgsl_ts_ge_total_window base t l ht hl hf⟩
  refine ⟨?_, ?_⟩
  · rcases List.mem_cons.1 hmem with h | h
    · rcases hxl with h2 | h2 <;> simp [h, h2]
    · simp [h]
  · intro u hu
    rcases List.mem_cons.1 hu with h | h
    · rw [h]
      exact hgsl_ts_ge_trans_window base m x l hmwin hxwin hl hmx hxl2.1
    · rcases List.mem_cons.1 h with h2 | h2
      · rw [h2]
        exact hgsl_ts_ge_trans_window base m x t hmwin hxwin ht hmx hxl2.2
      · exact hall u (by simp [h2])

/-- After a whole run of advance calls inside one window, `last_ts` is the
greatest timestamp seen, the initial `last_ts` included. -/
theorem hsync_signal_all_max (base : Nat) (ts : List Nat) :
    ∀ tl : hgsl_hsync_timeline,
      (∀ u ∈ tl.last_ts :: ts, u < 2 ^ 32 ∧ hgsl_ts_ge u base = true) →
      is_ts_max (hsync_signal_all tl ts).last_ts (tl.last_ts :: ts) := by
  induction ts with
  | nil =>
    intro tl _
    exact ⟨by simp [hsync_signal_all], by
      intro u hu
      simp only [List.mem_singleton] at hu
      simp [hsync_signal_all, hu, hgsl_ts_ge_refl]⟩
  | cons t rest ih =>
    intro tl hwin
    have hl := hwin tl.last_ts (by simp)
    have ht := hwin t (by simp)
    have hx := hsync_signal_last_ts tl t
    have hwin2 : ∀ u ∈ (hgsl_hsync_timeline_signal tl t).1.last_ts :: rest,
        u < 2 ^ 32 ∧ hgsl_ts_ge u base = true := by
      intro u hu
      rcases List.mem_cons.1 hu with h | h
      · rw [h, hx, Nat.mod_eq_of_lt ht.1]
        split <;> assumption
      · exact hwin u (by simp [h])
    have := ih (hgsl_hsync_timeline_signal tl t).1 hwin2
    exact is_ts_max_step base tl.last_ts t _ _ rest hwin hx this

/-- A forward on a registered timeline succeeds and leaves the advanced
timeline under the same id. -/
theorem isync_forward_get (priv : hgsl_priv) (id t : Nat) (tl : hgsl_isync_timeline)
    (hget : isync_timeline_get priv id = some tl) :
    ∃ p, hgsl_isync_forward priv id t = Except.ok p ∧
      isync_timeline_get p id = some (isync_timeline_forward tl t) := by
  unfold hgsl_isync_forward
  rw [hget]
  refine ⟨_, rfl, ?_⟩
  unfold isync_timeline_get at *
  rw [List.find?_map]
  have hfun : ((fun u : hgsl_isync_timeline => u.id == id) ∘
      fun u => if (u.id == id) = true then isync_timeline_forward u t else u) =
      fun u => u.id == id := by
    funext u
    simp only [Function.comp]
    split
    · next h =>
      have : (isync_timeline_forward u t).id = u.id := by
        unfold isync_timeline_forward
        split <;> rfl
      rw [this, h]
    · rfl
  rw [hfun, hget]
  have hid : (tl.id == id) = true := by
    have := List.find?_some hget
    simpa using this
  have hid2 : tl.id = id := by simpa using hid
  simp [hid2]

/-- After a whole run of forward calls inside one window, the `last_ts` of
the timeline is the greatest timestamp seen, the initial one included. -/
theorem isync_forward_all_max (base id : Nat) (ts : List Nat) :
    ∀ (priv : hgsl_priv) (tl : hgsl_isync_timeline),
      isync_timeline_get priv id = some tl →
      (∀ u ∈ tl.last_ts :: ts, u < 2 ^ 32 ∧ hgsl_ts_ge u base = true) →
      ∃ p tl2, isync_forward_all priv id ts = Except.ok p ∧
        isync_timeline_get p id = some tl2 ∧
        is_ts_max tl2.last_ts (tl.last_ts :: ts) := by
  induction ts with
  | nil =>
    intro priv tl hget _
    refine ⟨priv, tl, rfl, hget, by simp, ?_⟩
    intro u hu
    simp only [List.mem_singleton] at hu
    rw [hu]
    exact hgsl_ts_ge_refl _
  | cons t rest ih =>
    intro priv tl hget hwin
    obtain ⟨p1, hp1, hget1⟩ := isync_forward_get priv id t tl hget
    have ht := hwin t (by simp)
    have hl := hwin tl.last_ts (by simp)
    have hx := isync_forward_last_ts tl t
    have hwin2 : ∀ u ∈ (isync_timeline_forward tl t).last_ts :: rest,
        u < 2 ^ 32 ∧ hgsl_ts_ge u base = true := by
      intro u hu
      rcases List.mem_cons.1 hu with h | h
      · rw [h, hx, Nat.mod_eq_of_lt ht.1]
        split <;> assumption
      · exact hwin u (by simp [h])
    obtain ⟨p, tl2, hp, hget2, hmax⟩ := ih p1 _ hget1 hwin2
    refine ⟨p, tl2, ?_, hget2, ?_⟩
    · simp only [isync_forward_all, hp1]
      exact hp
    · exact is_ts_max_step base tl.last_ts t _ _ rest hwin hx hmax

/-- C3 (as stated, refuted): on a fresh timeline (`last_ts = 0`) the advance
calls 1, 0x80000000, 0xFFFFFFFF are all accepted and leave
`last_ts = 0xFFFFFFFF`, which is not at or after the first timestamp 1: it
is not the maximum of the timestamps seen, with or without the initial 0,
and the timestamps seen have no maximum under `hgsl_ts_ge` at all. -/
theorem hsync_last_ts_not_max :
    (hsync_signal_all ⟨7, [], 0, false⟩ [1, 0x80000000, 0xFFFFFFFF]).last_ts = 0xFFFFFFFF ∧
    hgsl_ts_ge 0xFFFFFFFF 1 = false ∧
    ¬ is_ts_max (hsync_signal_all ⟨7, [], 0, false⟩ [1, 0x80000000, 0xFFFFFFFF]).last_ts
        [1, 0x80000000, 0xFFFFFFFF] ∧
    ¬ is_ts_max (hsync_signal_all ⟨7, [], 0, false⟩ [1, 0x80000000, 0xFFFFFFFF]).last_ts
        [0, 1, 0x80000000, 0xFFFFFFFF] ∧
    ¬ ∃ m, is_ts_max m [1, 0x80000000, 0xFFFFFFFF] := by
  have h1 : (hsync_signal_all ⟨7, [], 0, false⟩ [1, 0x80000000, 0xFFFFFFFF]).last_ts
      = 0xFFFFFFFF := by decide
  have h2 : hgsl_ts_ge 0xFFFFFFFF 1 = false := by decide
  refine ⟨h1, h2, ?_, ?_, ?_⟩
  · rw [h1]
    intro h
    have := h.2 1 (by simp)
    rw [h2] at this
    exact Bool.noConfusion this
  · rw [h1]
    intro h
    have := h.2 1 (by simp)
    rw [h2] at this
    exact Bool.noConfusion this
  · rintro ⟨m, hm, hall⟩
    have e1 : hgsl_ts_ge 1 0x80000000 = false := by decide
    have e2 : hgsl_ts_ge 0x80000000 0xFFFFFFFF = false := by decide
    simp only [List.mem_cons, List.mem_singleton, List.not_mem_nil, or_false] at hm
    rcases hm with h | h | h
    · have := hall 0x80000000 (by simp)
      rw [h, e1] at this
      exact Bool.noConfusion this
    · have := hall 0xFFFFFFFF (by simp)
      rw [h, e2] at this
      exact Bool.noConfusion this
    · have := hall 1 (by simp)
      rw [h, h2] at this
      exact Bool.noConfusion this

/-- C3 (amended): when the initial `last_ts` and the timestamps of the
advance calls all lie in the window of `2^31` values ahead of one base, then
after each call (after the first `n` calls, for every `n`) `last_ts` is the
maximum under `hgsl_ts_ge` of the initial `last_ts` and the timestamps seen
so far, for `hgsl_hsync_timeline_signal` and for `hgsl_isync_forward` alike;
and a stale call, with `hgsl_ts_ge new_ts last_ts` false, changes nothing,
window or not. -/
theorem timeline_last_ts_window_max
    (tl : hgsl_hsync_timeline) (priv : hgsl_priv) (id : Nat) (itl : hgsl_isync_timeline)
    (base : Nat) (ts : List Nat) (n : Nat)
    (hwin : ∀ u ∈ tl.last_ts :: ts, u < 2 ^ 32 ∧ hgsl_ts_ge u base = true)
    (hget : isync_timeline_get priv id = some itl)
    (hiwin : ∀ u ∈ itl.last_ts :: ts, u < 2 ^ 32 ∧ hgsl_ts_ge u base = true) :
    is_ts_max (hsync_signal_all tl (ts.take n)).last_ts (tl.last_ts :: ts.take n) ∧
    (∃ p itl2, isync_forward_all priv id (ts.take n) = Except.ok p ∧
      isync_timeline_get p id = some itl2 ∧
      is_ts_max itl2.last_ts (itl.last_ts :: ts.take n)) ∧
    (∀ t, hgsl_ts_ge t tl.last_ts = false → hgsl_hsync_timeline_signal tl t = (tl, [])) ∧
    (∀ t, hgsl_ts_ge t itl.last_ts = false → isync_timeline_forward itl t = itl) := by
  have hsub : ∀ (l : Nat), (∀ u ∈ l :: ts, u < 2 ^ 32 ∧ hgsl_ts_ge u base = true) →
      ∀ u ∈ l :: ts.take n, u < 2 ^ 32 ∧ hgsl_ts_ge u base = true := by
    intro l h u hu
    rcases List.mem_cons.1 hu with h1 | h1
    · exact h u (by simp [h1])
    · exact h u (List.mem_cons_of_mem _ (List.mem_of_mem_take h1))
  refine ⟨hsync_signal_all_max base _ tl (hsub _ hwin),
    isync_forward_all_max base id _ priv itl hget (hsub _ hiwin), ?_, ?_⟩
  · intro t ht
    simp [hgsl_hsync_timeline_signal, ht]
  · intro t ht
    simp [isync_timeline_forward, ht]

/-- Witness for C3 (amended): a timeline at 0xFFFFFFF0 advanced across the
wrap by 0xFFFFFFFA, 5, 2 (the last one stale), base 0xFFFFFFF0. -/
theorem timeline_last_ts_window_max_witness :
    is_ts_max
      (hsync_signal_all ⟨7, [], 0xFFFFFFF0, false⟩ ([0xFFFFFFFA, 5, 2].take 3)).last_ts
      (0xFFFFFFF0 :: [0xFFFFFFFA, 5, 2].take 3) ∧
    (hsync_signal_all ⟨7, [], 0xFFFFFFF0, false⟩ [0xFFFFFFFA, 5, 2]).last_ts = 5 :=
  ⟨(timeline_last_ts_window_max ⟨7, [], 0xFFFFFFF0, false⟩ ⟨[⟨3, [], 9, 0xFFFFFFF0⟩]⟩ 3
      ⟨3, [], 9, 0xFFFFFFF0⟩ 0xFFFFFFF0 [0xFFFFFFFA, 5, 2] 3
      (by decide) (by decide) (by decide)).1, by decide⟩

/-! ## Signaling pending fences -/

/-- The fences the scan leaves on the list are those not reached. -/
theorem hsync_scan_fst (l : Nat) (fs : List hgsl_hsync_fence) :
    (hsync_scan l fs).1 = fs.filter (fun f => !hgsl_ts_ge l f.ts) := by
  induction fs with
  | nil => rfl
  | cons f rest ih =>
    simp only [hsync_scan, List.filter_cons]
    by_cases h : hgsl_ts_ge l f.ts = true
    · simp [h, ih]
    · simp [h, ih]

/-- The fences the scan signals are those reached, in the signaled state. -/
theorem hsync_scan_snd (l : Nat) (fs : List hgsl_hsync_fence) :
    (hsync_scan l fs).2 =
      (fs.filter (fun f => hgsl_ts_ge l f.ts)).map hsync_fence_signal := by
  induction fs with
  | nil => rfl
  | cons f rest ih =>
    simp only [hsync_scan, List.filter_cons]
    by_cases h : hgsl_ts_ge l f.ts = true
    · simp [h, ih]
    · simp [h, ih]

/-- C4: an advance that is not stale, or any advance on a timeline whose
pending fences are all unreached, signals exactly the pending fences `f`
with `hgsl_ts_ge last_ts f.ts` true for the `last_ts` the call leaves, and
keeps exactly the others pending; no reached fence is left pending on a
timeline that had none.  On the timeline with `last_ts = 0` and pending
targets 10, 20, 30: advance 15 signals only the target-10 fence, advance 25
then signals the target-20 fence, advance 29 signals nothing, and the
target-30 fence is signaled by advance 30. -/
theorem hsync_signal_exact (tl : hgsl_hsync_timeline) (ts : Nat) :
    (hgsl_ts_ge ts tl.last_ts = true ∨ pending_unreached tl →
      (hgsl_hsync_timeline_signal tl ts).2 =
        (tl.fence_list.filter
          (fun f => hgsl_ts_ge (hgsl_hsync_timeline_signal tl ts).1.last_ts f.ts)).map
          hsync_fence_signal ∧
      (hgsl_hsync_timeline_signal tl ts).1.fence_list =
        tl.fence_list.filter
          (fun f => !hgsl_ts_ge (hgsl_hsync_timeline_signal tl ts).1.last_ts f.ts)) ∧
    (pending_unreached tl → pending_unreached (hgsl_hsync_timeline_signal tl ts).1) ∧
    timeline_10_20_30 =
      ⟨7, [⟨fence_state.unsignaled, 7, 10⟩, ⟨fence_state.unsignaled, 7, 20⟩,
           ⟨fence_state.unsignaled, 7, 30⟩], 0, false⟩ ∧
    hgsl_hsync_timeline_signal timeline_10_20_30 15 =
      (⟨7, [⟨fence_state.unsignaled, 7, 20⟩, ⟨fence_state.unsignaled, 7, 30⟩], 15, false⟩,
       [⟨fence_state.signaled, 7, 10⟩]) ∧
    hgsl_hsync_timeline_signal (hgsl_hsync_timeline_signal timeline_10_20_30 15).1 25 =
      (⟨7, [⟨fence_state.unsignaled, 7, 30⟩], 25, false⟩,
       [⟨fence_state.signaled, 7, 20⟩]) ∧
    hgsl_hsync_timeline_signal (hsync_signal_all timeline_10_20_30 [15, 25]) 29 =
      (⟨7, [⟨fence_state.unsignaled, 7, 30⟩], 29, false⟩, []) ∧
    hgsl_hsync_timeline_signal (hsync_signal_all timeline_10_20_30 [15, 25, 29]) 30 =
      (⟨7, [], 30, false⟩, [⟨fence_state.signaled, 7, 30⟩]) := by
  refine ⟨?_, ?_, by decide, by decide, by decide, by decide, by decide⟩
  · intro hor
    by_cases h : hgsl_ts_ge ts tl.last_ts = true
    · simp [hgsl_hsync_timeline_signal, h, hsync_scan_snd, hsync_scan_fst]
    · have hinv : pending_unreached tl := hor.resolve_left h
      have hnone : tl.fence_list.filter (fun f => hgsl_ts_ge tl.last_ts f.ts) = [] := by
        rw [List.filter_eq_nil_iff]
        intro f hf
        simp [hinv f hf]
      have hall : tl.fence_list.filter (fun f => !hgsl_ts_ge tl.last_ts f.ts)
          = tl.fence_list := by
        rw [List.filter_eq_self]
        intro f hf
        simp [hinv f hf]
      simp [hgsl_hsync_timeline_signal, h, hnone, hall]
  · intro hinv
    by_cases h : hgsl_ts_ge ts tl.last_ts = true
    · intro f hf
      simp only [hgsl_hsync_timeline_signal, h, if_true, hsync_scan_fst] at hf ⊢
      have := (List.mem_filter.1 hf).2
      simpa using this
    · simpa [hgsl_hsync_timeline_signal, h] using hinv

/-- Witness for C4: the scenario timeline, advanced to 15. -/
theorem hsync_signal_exact_witness :
    pending_unreached timeline_10_20_30 ∧
    (hgsl_hsync_timeline_signal timeline_10_20_30 15).2 =
      (timeline_10_20_30.fence_list.filter
        (fun f => hgsl_ts_ge (hgsl_hsync_timeline_signal timeline_10_20_30 15).1.last_ts
          f.ts)).map hsync_fence_signal ∧
    (hgsl_hsync_timeline_signal timeline_10_20_30 15).2 = [⟨fence_state.signaled, 7, 10⟩] ∧
    pending_unreached (hgsl_hsync_timeline_signal timeline_10_20_30 15).1 :=
  ⟨by unfold pending_unreached; decide,
   ((hsync_signal_exact timeline_10_20_30 15).1 (Or.inl (by decide))).1,
   by decide,
   (hsync_signal_exact timeline_10_20_30 15).2.1 (by unfold pending_unreached; decide)⟩

/-! ## Creating a fence -/

/-- C5: creating a fence whose target the timeline has already reached
leaves the timeline, and so its pending list (same members, same length),
unchanged; a fence it returns is in the signaled state; and on a timeline
that is not being destroyed it does return a fence, signaled, with the
requested target. -/
theorem hsync_fence_create_reached (tl : hgsl_hsync_timeline) (ts : Nat)
    (hreached : hgsl_ts_ge tl.last_ts ts = true) :
    (hgsl_hsync_fence_create tl ts).2.fence_list = tl.fence_list ∧
    (hgsl_hsync_fence_create tl ts).2.fence_list.length = tl.fence_list.length ∧
    (hgsl_hsync_fence_create tl ts).2 = tl ∧
    (∀ f, (hgsl_hsync_fence_create tl ts).1 = Except.ok f →
      f.fence = fence_state.signaled) ∧
    (tl.destroyed = false →
      (hgsl_hsync_fence_create tl ts).1 =
        Except.ok ⟨fence_state.signaled, tl.fence_context, ts % 2 ^ 32⟩) := by
  cases hd : tl.destroyed
  · simp [hgsl_hsync_fence_create, hd, hreached, hsync_fence_signal, to_u32, U32_MOD]
  · simp [hgsl_hsync_fence_create, hd]

/-- Witness for C5: a timeline at 25 with one pending fence (target 30),
asked for a fence with target 20. -/
theorem hsync_fence_create_reached_witness :
    hgsl_ts_ge 25 20 = true ∧
    (hgsl_hsync_fence_create ⟨7, [⟨fence_state.unsignaled, 7, 30⟩], 25, false⟩ 20).2.fence_list
      = [⟨fence_state.unsignaled, 7, 30⟩] ∧
    (hgsl_hsync_fence_create ⟨7, [⟨fence_state.unsignaled, 7, 30⟩], 25, false⟩ 20).1
      = Except.ok ⟨fence_state.signaled, 7, 20 % 2 ^ 32⟩ :=
  ⟨by decide,
   (hsync_fence_create_reached ⟨7, [⟨fence_state.unsignaled, 7, 30⟩], 25, false⟩ 20
      (by decide)).1,
   (hsync_fence_create_reached ⟨7, [⟨fence_state.unsignaled, 7, 30⟩], 25, false⟩ 20
      (by decide)).2.2.2.2 rfl⟩

/-! ## Order of two targets -/

/-- C6 (as stated, refuted): for the targets `A = 1` and `B = 0`,
`hgsl_ts_ge B A` is false, yet `hgsl_ts_ge A B` is true; on a timeline at
0xFFFFFFF0 with both fences pending, advancing to `A = 1` signals the fence
with target `B = 0` as well. -/
theorem hsync_order_as_stated_fails :
    hgsl_ts_ge 0 1 = false ∧ hgsl_ts_ge 1 0 = true ∧
    ¬ (∀ A B : Nat, A < 2 ^ 32 → B < 2 ^ 32 →
        hgsl_ts_ge B A = false → hgsl_ts_ge A B = false) ∧
    hgsl_hsync_timeline_signal
      (hgsl_hsync_fence_create (hgsl_hsync_fence_create ⟨7, [], 0xFFFFFFF0, false⟩ 1).2 0).2 1
      = (⟨7, [], 1, false⟩, [⟨fence_state.signaled, 7, 1⟩, ⟨fence_state.signaled, 7, 0⟩]) := by
  refine ⟨by decide, by decide, ?_, by decide⟩
  intro h
  have := h 1 0 (by norm_num) (by norm_num) (by decide)
  exact absurd this (by decide)

/-- C6 (amended): for two distinct 32-bit fence targets `A` and `B` with
`hgsl_ts_ge B A` true (`B` at or after `A`, so `A` strictly earlier),
advancing the timeline to `A` never signals `B`: `hgsl_ts_ge A B` is false,
no fence the advance signals has target `B`, and every pending fence with
target `B` is still pending afterwards. -/
theorem hsync_earlier_target_first (tl : hgsl_hsync_timeline) (A B : Nat)
    (hA : A < 2 ^ 32) (hB : B < 2 ^ 32) (hne : A ≠ B)
    (hBA : hgsl_ts_ge B A = true) :
    hgsl_ts_ge A B = false ∧
    (∀ f ∈ (hgsl_hsync_timeline_signal tl A).2, f.ts ≠ B) ∧
    (∀ f ∈ tl.fence_list, f.ts = B → f ∈ (hgsl_hsync_timeline_signal tl A).1.fence_list) := by
  have hAB : hgsl_ts_ge A B = false := by
    rw [hgsl_ts_ge_false_iff]
    rw [hgsl_ts_ge_iff] at hBA
    omega
  have hAm : to_u32 A = A := Nat.mod_eq_of_lt hA
  refine ⟨hAB, ?_, ?_⟩
  · intro f hf
    by_cases h : hgsl_ts_ge A tl.last_ts = true
    · simp only [hgsl_hsync_timeline_signal, h, if_true, hsync_scan_snd, hAm,
        List.mem_map, List.mem_filter] at hf
      obtain ⟨g, ⟨_, hg⟩, rfl⟩ := hf
      intro hts
      have : g.ts = B := by simpa [hsync_fence_signal] using hts
      rw [this, hAB] at hg
      exact Bool.noConfusion hg
    · simp [hgsl_hsync_timeline_signal, h] at hf
  · intro f hf hts
    by_cases h : hgsl_ts_ge A tl.last_ts = true
    · simp only [hgsl_hsync_timeline_signal, h, if_true, hsync_scan_fst, hAm,
        List.mem_filter]
      exact ⟨hf, by simp [hts, hAB]⟩
    · simpa [hgsl_hsync_timeline_signal, h] using hf

/-- Witness for C6 (amended): targets `A = 10`, `B = 20` on the scenario
timeline. -/
theorem hsync_earlier_target_first_witness :
    hgsl_ts_ge 20 10 = true ∧ hgsl_ts_ge 10 20 = false ∧
    (∀ f ∈ (hgsl_hsync_timeline_signal timeline_10_20_30 10).2, f.ts ≠ 20) :=
  ⟨by decide,
   (hsync_earlier_target_first timeline_10_20_30 10 20 (by norm_num) (by norm_num)
      (by decide) (by decide)).1,
   (hsync_earlier_target_first timeline_10_20_30 10 20 (by norm_num) (by norm_num)
      (by decide) (by decide)).2.1⟩

end Hgsl

namespace Rpmb

/-! ## rpmb_cmd_seq -/

/-- C7: `rpmb_cmd_seq` returns `-EINVAL`, calls no device operation and
leaves the commands alone when `rdev` is NULL, `cmds` is NULL or `ncmds` is
0; with valid parameters it returns `-EOPNOTSUPP` (again without a call) when
the device has no `ops` or no `cmd_seq` operation; in every other case it
calls the device's `cmd_seq` operation once and returns exactly what that
call returned. -/
theorem rpmb_cmd_seq_returns (K : rpmb_consts) (rdev : Option rpmb_dev)
    (cmds : Option (List rpmb_cmd)) (ncmds : Nat) :
    ((rdev = none ∨ cmds = none ∨ ncmds = 0) →
      (rpmb_cmd_seq K rdev cmds ncmds).ret = -K.EINVAL ∧
      (rpmb_cmd_seq K rdev cmds ncmds).dev_calls = [] ∧
      (rpmb_cmd_seq K rdev cmds ncmds).cmds = cmds) ∧
    (∀ d cs, rdev = some d → cmds = some cs → ncmds ≠ 0 →
      (d.ops = none ∨ ∃ ops, d.ops = some ops ∧ ops.cmd_seq = none) →
      (rpmb_cmd_seq K rdev cmds ncmds).ret = -K.EOPNOTSUPP ∧
      (rpmb_cmd_seq K rdev cmds ncmds).dev_calls = [] ∧
      (rpmb_cmd_seq K rdev cmds ncmds).cmds = cmds) ∧
    (∀ d cs ops op, rdev = some d → cmds = some cs → ncmds ≠ 0 →
      d.ops = some ops → ops.cmd_seq = some op →
      (rpmb_cmd_seq K rdev cmds ncmds).ret =
        (op d.parent d.target (rpmb_cmd_fixup K ops cs ncmds) ncmds).1 ∧
      (rpmb_cmd_seq K rdev cmds ncmds).dev_calls =
        [⟨d.parent, d.target, rpmb_cmd_fixup K ops cs ncmds, ncmds⟩]) := by
  refine ⟨?_, ?_, ?_⟩
  · rintro (h | h | h)
    · subst h
      simp [rpmb_cmd_seq]
    · subst h
      cases rdev <;> simp [rpmb_cmd_seq]
    · subst h
      cases rdev <;> cases cmds <;> simp [rpmb_cmd_seq]
  · rintro d cs rfl rfl hn (h | ⟨ops, h, hop⟩)
    · simp [rpmb_cmd_seq, hn, h]
    · simp [rpmb_cmd_seq, hn, h, hop]
  · rintro d cs ops op rfl rfl hn h hop
    simp [rpmb_cmd_seq, hn, h, hop]

/-- Witness for C7, on the two sample commands (a well-formed array of two
commands with one frame each): a NULL device and a zero count give `-EINVAL`
with no device call and the commands untouched; a device without a `cmd_seq`
operation gives `-EOPNOTSUPP`; the registered eMMC device, whose operation
returns 0, is called once and gives 0. -/
theorem rpmb_cmd_seq_returns_witness :
    cmds_well_formed sample_cmds 2 ∧
    ((rpmb_cmd_seq linux_consts none (some sample_cmds) 2).ret = -linux_consts.EINVAL ∧
      (rpmb_cmd_seq linux_consts none (some sample_cmds) 2).dev_calls = [] ∧
      (rpmb_cmd_seq linux_consts none (some sample_cmds) 2).cmds = some sample_cmds) ∧
    ((rpmb_cmd_seq linux_consts (some sample_registered_dev) (some sample_cmds) 0).ret
        = -linux_consts.EINVAL ∧
      (rpmb_cmd_seq linux_consts (some sample_registered_dev) (some sample_cmds) 0).dev_calls
        = [] ∧
      (rpmb_cmd_seq linux_consts (some sample_registered_dev) (some sample_cmds) 0).cmds
        = some sample_cmds) ∧
    (rpmb_cmd_seq linux_consts (some sample_no_cmd_seq_dev) (some sample_cmds) 2).ret
      = -linux_consts.EOPNOTSUPP ∧
    ((rpmb_cmd_seq linux_consts (some sample_registered_dev) (some sample_cmds) 2).ret
        = (sample_cmd_seq_op sample_registered_dev.parent sample_registered_dev.target
            (rpmb_cmd_fixup linux_consts sample_registered_ops sample_cmds 2) 2).1 ∧
      (rpmb_cmd_seq linux_consts (some sample_registered_dev) (some sample_cmds) 2).dev_calls
        = [⟨sample_registered_dev.parent, sample_registered_dev.target,
            rpmb_cmd_fixup linux_consts sample_registered_ops sample_cmds 2, 2⟩]) ∧
    (rpmb_cmd_seq linux_consts (some sample_registered_dev) (some sample_cmds) 2).ret = 0 :=
  ⟨by unfold cmds_well_formed; decide,
   (rpmb_cmd_seq_returns linux_consts none (some sample_cmds) 2).1 (Or.inl rfl),
   (rpmb_cmd_seq_returns linux_consts (some sample_registered_dev) (some sample_cmds) 0).1
      (Or.inr (Or.inr rfl)),
   ((rpmb_cmd_seq_returns linux_consts (some sample_no_cmd_seq_dev) (some sample_cmds) 2).2.1
      sample_no_cmd_seq_dev sample_cmds rfl rfl (by decide)
      (Or.inr ⟨_, rfl, rfl⟩)).1,
   (rpmb_cmd_seq_returns linux_consts (some sample_registered_dev) (some sample_cmds) 2).2.2
      sample_registered_dev sample_cmds sample_registered_ops sample_cmd_seq_op
      rfl rfl (by decide) rfl rfl,
   by decide⟩

/-! ## rpmb_get_capacity -/

/-- C8 (as stated, refuted): a registered, non-NULL device whose
`get_capacity` operation fails with `-EINVAL` makes `rpmb_get_capacity`
return `-EINVAL`, so that value does not single out a NULL `rdev`. -/
theorem rpmb_get_capacity_einval_non_null :
    rpmb_get_capacity linux_consts
      (some ⟨0, some ⟨none, some (fun _ _ => -22), 1⟩, 0, 0⟩) = -linux_consts.EINVAL ∧
    ¬ (∀ (K : rpmb_consts) (rdev : Option rpmb_dev),
        rpmb_get_capacity K rdev = -K.EINVAL ↔ rdev = none) := by
  have h : rpmb_get_capacity linux_consts
      (some ⟨0, some ⟨none, some (fun _ _ => -22), 1⟩, 0, 0⟩) = -linux_consts.EINVAL := by
    decide
  refine ⟨h, ?_⟩
  intro hall
  have := (hall linux_consts _).1 h
  exact Option.noConfusion this

/-- C8 (amended): `rpmb_get_capacity` returns `-EINVAL` when `rdev` is NULL;
for a non-NULL `rdev` it returns `-EOPNOTSUPP` when the device has no `ops`
or no `get_capacity` operation, and otherwise exactly the value returned by
the device's `get_capacity` operation.  So, `EINVAL` and `EOPNOTSUPP` being
different, it returns `-EINVAL` exactly when `rdev` is NULL or the device's
own operation returned `-EINVAL`. -/
theorem rpmb_get_capacity_returns (K : rpmb_consts) (rdev : Option rpmb_dev) :
    (rdev = none → rpmb_get_capacity K rdev = -K.EINVAL) ∧
    (∀ d, rdev = some d →
      (d.ops = none ∨ ∃ ops, d.ops = some ops ∧ ops.get_capacity = none) →
      rpmb_get_capacity K rdev = -K.EOPNOTSUPP) ∧
    (∀ d ops op, rdev = some d → d.ops = some ops → ops.get_capacity = some op →
      rpmb_get_capacity K rdev = op d.parent d.target) ∧
    (K.EINVAL ≠ K.EOPNOTSUPP →
      (rpmb_get_capacity K rdev = -K.EINVAL ↔
        rdev = none ∨
        ∃ d ops op, rdev = some d ∧ d.ops = some ops ∧ ops.get_capacity = some op ∧
          op d.parent d.target = -K.EINVAL)) := by
  refine ⟨?_, ?_, ?_, ?_⟩
  · rintro rfl
    rfl
  · rintro d rfl (h | ⟨ops, h, hop⟩)
    · simp [rpmb_get_capacity, h]
    · simp [rpmb_get_capacity, h, hop]
  · rintro d ops op rfl h hop
    simp [rpmb_get_capacity, h, hop]
  · intro hne
    have hne2 : ¬ (K.EOPNOTSUPP = K.EINVAL) := fun h => hne h.symm
    cases rdev with
    | none => simp [rpmb_get_capacity]
    | some d =>
      cases hops : d.ops with
      | none => simp [rpmb_get_capacity, hops, hne2]
      | some ops =>
        cases hop : ops.get_capacity with
        | none => simp [rpmb_get_capacity, hops, hop, hne2]
        | some op => simp [rpmb_get_capacity, hops, hop]

/-- Witness for C8 (amended): with the Linux errno values, an eMMC device
reporting a capacity of 32 units. -/
theorem rpmb_get_capacity_returns_witness :
    linux_consts.EINVAL ≠ linux_consts.EOPNOTSUPP ∧
    rpmb_get_capacity linux_consts
      (some ⟨0, some ⟨none, some (fun _ _ => 32), 1⟩, 0, 0⟩) = 32 ∧
    (rpmb_get_capacity linux_consts none = -linux_consts.EINVAL ↔
      (none : Option rpmb_dev) = none ∨
      ∃ d ops op, (none : Option rpmb_dev) = some d ∧ d.ops = some ops ∧
        ops.get_capacity = some op ∧ op d.parent d.target = -linux_consts.EINVAL) :=
  ⟨by decide,
   (rpmb_get_capacity_returns linux_consts
      (some ⟨0, some ⟨none, some (fun _ _ => 32), 1⟩, 0, 0⟩)).2.2.1
      ⟨0, some ⟨none, some (fun _ _ => 32), 1⟩, 0, 0⟩ ⟨none, some (fun _ _ => 32), 1⟩
      (fun _ _ => 32) rfl rfl rfl,
   (rpmb_get_capacity_returns linux_consts none).2.2.2 (by decide)⟩

/-! ## rpmb_dev_get_by_type -/

/-- A device before which nothing matches and which matches itself is the
one `class_find_device` returns. -/
theorem class_find_device_first {α : Type} (data : α) (fn : rpmb_dev → α → Bool)
    (pre : List rpmb_dev) (d : rpmb_dev) (post : List rpmb_dev)
    (hpre : ∀ x ∈ pre, fn x data = false) (hd : fn d data = true) :
    class_find_device (pre ++ d :: post) data fn = some d := by
  induction pre with
  | nil => simp [class_find_device, hd]
  | cons x rest ih =>
    have hx := hpre x (by simp)
    simp only [List.cons_append, class_find_device, hx]
    exact ih (fun y hy => hpre y (by simp [hy]))

/-- Nothing is returned by `class_find_device` exactly when no device
matches. -/
theorem class_find_device_none {α : Type} (data : α) (fn : rpmb_dev → α → Bool)
    (devices : List rpmb_dev) :
    class_find_device devices data fn = none ↔ ∀ x ∈ devices, fn x data = false := by
  induction devices with
  | nil => simp [class_find_device]
  | cons x rest ih =>
    by_cases hx : fn x data = true
    · simp [class_find_device, hx]
    · simp [class_find_device, hx, ih]

/-- C9: `rpmb_dev_get_by_type` returns `ERR_PTR(-EINVAL)` for every type
above `RPMB_TYPE_MAX`; for any other type it returns the first registered
device `match_by_type` accepts, and NULL exactly when it accepts none;
`match_by_type` accepts every device for `RPMB_TYPE_ANY`, and for any other
type exactly the devices whose `ops->type` equals it. -/
theorem rpmb_dev_get_by_type_first_match (K : rpmb_consts) (devices : List rpmb_dev)
    (type : Nat) :
    (type > K.RPMB_TYPE_MAX →
      rpmb_dev_get_by_type K devices type = rpmb_dev_ptr.err (-K.EINVAL)) ∧
    (type ≤ K.RPMB_TYPE_MAX →
      (∀ pre d post, devices = pre ++ d :: post →
        (∀ x ∈ pre, match_by_type K x type = false) → match_by_type K d type = true →
        rpmb_dev_get_by_type K devices type = rpmb_dev_ptr.dev d) ∧
      (rpmb_dev_get_by_type K devices type = rpmb_dev_ptr.null ↔
        ∀ x ∈ devices, match_by_type K x type = false)) ∧
    (∀ d, match_by_type K d K.RPMB_TYPE_ANY = true) ∧
    (∀ d t, t ≠ K.RPMB_TYPE_ANY →
      (match_by_type K d t = true ↔ ∃ ops, d.ops = some ops ∧ ops.type = t)) := by
  refine ⟨?_, ?_, ?_, ?_⟩
  · intro h
    simp [rpmb_dev_get_by_type, h]
  · intro h
    have hle : ¬ (type > K.RPMB_TYPE_MAX) := Nat.not_lt.2 h
    refine ⟨?_, ?_⟩
    · rintro pre d post rfl hpre hd
      simp only [rpmb_dev_get_by_type, hle, if_false, rpmb_dev_find_device,
        class_find_device_first type (match_by_type K) pre d post hpre hd]
    · rw [← class_find_device_none]
      simp only [rpmb_dev_get_by_type, hle, if_false, rpmb_dev_find_device]
      cases class_find_device devices type (match_by_type K) <;> simp
  · intro d
    simp [match_by_type]
  · intro d t ht
    cases hops : d.ops with
    | none => simp [match_by_type, hops, ht]
    | some ops => simp [match_by_type, hops, ht]

/-- Witness for C9: a UFS device registered before an eMMC device; a lookup
by the eMMC type skips the first and returns the second. -/
theorem rpmb_dev_get_by_type_first_match_witness :
    rpmb_dev_get_by_type linux_consts
      [⟨10, some ⟨none, none, 2⟩, 0, 0⟩, ⟨11, some ⟨none, none, 1⟩, 1, 0⟩] 1
      = rpmb_dev_ptr.dev ⟨11, some ⟨none, none, 1⟩, 1, 0⟩ ∧
    rpmb_dev_get_by_type linux_consts [] 0x104 = rpmb_dev_ptr.err (-linux_consts.EINVAL) :=
  ⟨((rpmb_dev_get_by_type_first_match linux_consts
      [⟨10, some ⟨none, none, 2⟩, 0, 0⟩, ⟨11, some ⟨none, none, 1⟩, 1, 0⟩] 1).2.1
      (by decide)).1 [⟨10, some ⟨none, none, 2⟩, 0, 0⟩] ⟨11, some ⟨none, none, 1⟩, 1, 0⟩ []
      rfl (by decide) (by decide),
   (rpmb_dev_get_by_type_first_match linux_consts [] 0x104).1 (by decide)⟩

end Rpmb

namespace VirtioVideo

/-! ## format_table -/

/-- C10: the RGB rows of `format_table` are found in both directions, the
three virtio RGB constants being distinct from each other and the three V4L2
RGB codes being distinct from each other: BGRA8888 maps to ABGR32 and
RGBA8888 to RGB32, and ABGR32 maps back to BGRA8888 and RGB32 back to
RGBA8888. -/
theorem format_rgb_mapping (K : format_consts)
    (h1 : K.VIRTIO_VIDEO_FORMAT_ARGB8888 ≠ K.VIRTIO_VIDEO_FORMAT_BGRA8888)
    (h2 : K.VIRTIO_VIDEO_FORMAT_ARGB8888 ≠ K.VIRTIO_VIDEO_FORMAT_RGBA8888)
    (h3 : K.VIRTIO_VIDEO_FORMAT_BGRA8888 ≠ K.VIRTIO_VIDEO_FORMAT_RGBA8888)
    (h4 : K.V4L2_PIX_FMT_ARGB32 ≠ K.V4L2_PIX_FMT_ABGR32)
    (h5 : K.V4L2_PIX_FMT_ARGB32 ≠ K.V4L2_PIX_FMT_RGB32)
    (h6 : K.V4L2_PIX_FMT_ABGR32 ≠ K.V4L2_PIX_FMT_RGB32) :
    virtio_video_format_to_v4l2 K K.VIRTIO_VIDEO_FORMAT_BGRA8888 = K.V4L2_PIX_FMT_ABGR32 ∧
    virtio_video_format_to_v4l2 K K.VIRTIO_VIDEO_FORMAT_RGBA8888 = K.V4L2_PIX_FMT_RGB32 ∧
    virtio_video_v4l2_format_to_virtio K K.V4L2_PIX_FMT_ABGR32
      = K.VIRTIO_VIDEO_FORMAT_BGRA8888 ∧
    virtio_video_v4l2_format_to_virtio K K.V4L2_PIX_FMT_RGB32
      = K.VIRTIO_VIDEO_FORMAT_RGBA8888 := by
  refine ⟨?_, ?_, ?_, ?_⟩
  · simp [virtio_video_format_to_v4l2, format_table, lookup_by_virtio, h1]
  · simp [virtio_video_format_to_v4l2, format_table, lookup_by_virtio, h2, h3]
  · simp [virtio_video_v4l2_format_to_virtio, format_table, lookup_by_v4l2, h4]
  · simp [virtio_video_v4l2_format_to_virtio, format_table, lookup_by_v4l2, h5, h6]

/-- Witness for C10, at the sample constants. -/
theorem format_rgb_mapping_witness :
    virtio_video_format_to_v4l2 sample_consts sample_consts.VIRTIO_VIDEO_FORMAT_BGRA8888
      = sample_consts.V4L2_PIX_FMT_ABGR32 ∧
    virtio_video_format_to_v4l2 sample_consts sample_consts.VIRTIO_VIDEO_FORMAT_RGBA8888
      = sample_consts.V4L2_PIX_FMT_RGB32 ∧
    virtio_video_v4l2_format_to_virtio sample_consts sample_consts.V4L2_PIX_FMT_ABGR32
      = sample_consts.VIRTIO_VIDEO_FORMAT_BGRA8888 ∧
    virtio_video_v4l2_format_to_virtio sample_consts sample_consts.V4L2_PIX_FMT_RGB32
      = sample_consts.VIRTIO_VIDEO_FORMAT_RGBA8888 :=
  format_rgb_mapping sample_consts (by decide) (by decide) (by decide)
    (by decide) (by decide) (by decide)

end VirtioVideo

namespace Hgsl

/-! ## Edges of the comparison window -/

/-- C11: at the edges of the window, for every `b` (additions modulo
`2^32`): `hgsl_ts_ge b b` is true, `hgsl_ts_ge (b + 0x7FFFFFFF) b` is true
and `hgsl_ts_ge (b + 0x80000000) b` is false; in particular
`hgsl_ts_ge 0x7FFFFFFF 0` is true, `hgsl_ts_ge 0x80000000 0` is false and
`hgsl_ts_ge 0 0x80000000` is false. -/
theorem hgsl_ts_ge_window_edges (b : Nat) :
    hgsl_ts_ge b b = true ∧
    hgsl_ts_ge ((b + 0x7FFFFFFF) % 2 ^ 32) b = true ∧
    hgsl_ts_ge ((b + 0x80000000) % 2 ^ 32) b = false ∧
    hgsl_ts_ge 0x7FFFFFFF 0 = true ∧
    hgsl_ts_ge 0x80000000 0 = false ∧
    hgsl_ts_ge 0 0x80000000 = false := by
  refine ⟨?_, ?_, ?_, by decide, by decide, by decide⟩
  · rw [hgsl_ts_ge_iff]
    omega
  · rw [hgsl_ts_ge_iff]
    omega
  · rw [hgsl_ts_ge_false_iff]
    omega

/-! ## Antisymmetry -/

/-- C15: for 32-bit `a` and `b`, `hgsl_ts_ge a b` and `hgsl_ts_ge b a` are
both true if and only if `a = b`, both false if and only if
`(a - b) mod 2^32 = 2^31`, and for every other pair exactly one of the two is
true. -/
theorem hgsl_ts_ge_antisymm (a b : Nat) (ha : a < 2 ^ 32) (hb : b < 2 ^ 32) :
    ((hgsl_ts_ge a b = true ∧ hgsl_ts_ge b a = true) ↔ a = b) ∧
    ((hgsl_ts_ge a b = false ∧ hgsl_ts_ge b a = false) ↔
      ((a : Int) - (b : Int)) % 2 ^ 32 = 2 ^ 31) ∧
    (a ≠ b → ((a : Int) - (b : Int)) % 2 ^ 32 ≠ 2 ^ 31 →
      (hgsl_ts_ge a b = true ∧ hgsl_ts_ge b a = false) ∨
      (hgsl_ts_ge a b = false ∧ hgsl_ts_ge b a = true)) := by
  refine ⟨?_, ?_, ?_⟩
  · rw [hgsl_ts_ge_iff, hgsl_ts_ge_iff]
    omega
  · rw [hgsl_ts_ge_false_iff, hgsl_ts_ge_false_iff]
    omega
  · rw [hgsl_ts_ge_iff, hgsl_ts_ge_iff, hgsl_ts_ge_false_iff, hgsl_ts_ge_false_iff]
    omega

/-- Witness for C15: the wrap pair `a = 5`, `b = 0xFFFFFFFE`, where exactly
`hgsl_ts_ge a b` is true. -/
theorem hgsl_ts_ge_antisymm_witness :
    (hgsl_ts_ge 5 0xFFFFFFFE = true ∧ hgsl_ts_ge 0xFFFFFFFE 5 = false) ∨
    (hgsl_ts_ge 5 0xFFFFFFFE = false ∧ hgsl_ts_ge 0xFFFFFFFE 5 = true) :=
  (hgsl_ts_ge_antisymm 5 0xFFFFFFFE (by norm_num) (by norm_num)).2.2
    (by decide) (by norm_num)

/-! ## Default target of an isync fence -/

/-- The fences the isync scan leaves on the list are those not reached. -/
theorem isync_scan_fst (l : Nat) (fs : List hgsl_isync_fence) :
    (isync_scan l fs).1 = fs.filter (fun f => !hgsl_ts_ge l f.ts) := by
  induction fs with
  | nil => rfl
  | cons f rest ih =>
    simp only [isync_scan, List.filter_cons]
    by_cases h : hgsl_ts_ge l f.ts = true
    · simp [h, ih]
    · simp [h, ih]

/-- Creating a fence keeps the id of the timeline. -/
theorem isync_fence_create_id (u : hgsl_isync_timeline) (ts : Nat) (v : Bool) :
    (isync_timeline_fence_create u ts v).2.id = u.id := by
  unfold isync_timeline_fence_create
  dsimp only
  by_cases h : hgsl_ts_ge u.last_ts
      (if v = true then to_u32 ts else to_u32 (u.last_ts + 1)) = true
  · rw [if_pos h]
  · rw [if_neg h]

/-- The successor of a timestamp is not yet reached by it. -/
theorem hgsl_ts_ge_succ_false (l : Nat) :
    hgsl_ts_ge l ((l + 1) % 2 ^ 32) = false := by
  rw [hgsl_ts_ge_false_iff]
  omega

/-- The successor of a timestamp is at or after it. -/
theorem hgsl_ts_ge_succ_true (l : Nat) :
    hgsl_ts_ge ((l + 1) % 2 ^ 32) l = true := by
  rw [hgsl_ts_ge_iff]
  omega

/-- C12: the default isync target `last_ts + 1` (modulo `2^32`) is strictly
ahead of the timeline for every `last_ts`, 0xFFFFFFFF included, where it
wraps to 0: `hgsl_ts_ge last_ts (last_ts + 1)` is false and
`hgsl_ts_ge (last_ts + 1) last_ts` is true.  So a fence created without an
explicit target gets that target, is returned unsignaled and queued, and a
forward to that target is accepted, moves `last_ts` there and takes the fence
off the pending list. -/
theorem isync_default_target_ahead (priv : hgsl_priv) (id ts : Nat)
    (tl : hgsl_isync_timeline) (hget : isync_timeline_get priv id = some tl) :
    hgsl_ts_ge tl.last_ts ((tl.last_ts + 1) % 2 ^ 32) = false ∧
    hgsl_ts_ge ((tl.last_ts + 1) % 2 ^ 32) tl.last_ts = true ∧
    ((0xFFFFFFFF + 1) % 2 ^ 32 = 0 ∧ hgsl_ts_ge 0xFFFFFFFF 0 = false ∧
      hgsl_ts_ge 0 0xFFFFFFFF = true) ∧
    isync_timeline_fence_create tl ts false =
      (⟨fence_state.unsignaled, (tl.last_ts + 1) % 2 ^ 32⟩,
       { tl with fence_list :=
           tl.fence_list ++ [⟨fence_state.unsignaled, (tl.last_ts + 1) % 2 ^ 32⟩] }) ∧
    (∃ p, hgsl_isync_fence_create priv id ts false =
        Except.ok (⟨fence_state.unsignaled, (tl.last_ts + 1) % 2 ^ 32⟩, p) ∧
      isync_timeline_get p id = some (isync_timeline_fence_create tl ts false).2) ∧
    (isync_timeline_forward (isync_timeline_fence_create tl ts false).2
      ((tl.last_ts + 1) % 2 ^ 32)).last_ts = (tl.last_ts + 1) % 2 ^ 32 ∧
    (∀ f ∈ (isync_timeline_forward (isync_timeline_fence_create tl ts false).2
      ((tl.last_ts + 1) % 2 ^ 32)).fence_list, f.ts ≠ (tl.last_ts + 1) % 2 ^ 32) := by
  have e : ∀ x : Nat, x % 2 ^ 32 = to_u32 x := fun _ => rfl
  have hf := hgsl_ts_ge_succ_false tl.last_ts
  have ht := hgsl_ts_ge_succ_true tl.last_ts
  have hmod : ∀ x : Nat, to_u32 (to_u32 x) = to_u32 x := by
    intro x
    simp [to_u32, U32_MOD]
  simp only [e] at hf ht ⊢
  have hcreate : isync_timeline_fence_create tl ts false =
      (⟨fence_state.unsignaled, to_u32 (tl.last_ts + 1)⟩,
       { tl with fence_list :=
           tl.fence_list ++ [⟨fence_state.unsignaled, to_u32 (tl.last_ts + 1)⟩] }) := by
    simp [isync_timeline_fence_create, hf]
  refine ⟨hf, ht, ⟨by decide, by decide, by decide⟩, hcreate, ?_, ?_, ?_⟩
  · unfold hgsl_isync_fence_create
    rw [hget]
    refine ⟨{ priv with
        isync_timeline_idr :=
          priv.isync_timeline_idr.map
            (fun t =>
              if t.id == id then (isync_timeline_fence_create t ts false).2 else t) },
      ?_, ?_⟩
    · simp only [hcreate]
    · unfold isync_timeline_get at *
      rw [List.find?_map]
      have hfun : ((fun u : hgsl_isync_timeline => u.id == id) ∘
          fun u => if (u.id == id) = true then (isync_timeline_fence_create u ts false).2
            else u) = fun u => u.id == id := by
        funext u
        simp only [Function.comp]
        split
        · next h =>
          rw [isync_fence_create_id, h]
        · rfl
      rw [hfun, hget]
      have hid : (tl.id == id) = true := by
        have := List.find?_some hget
        simpa using this
      have hid2 : tl.id = id := by simpa using hid
      simp [hid2]
  · rw [hcreate]
    simp [isync_timeline_forward, ht, hmod]
  · rw [hcreate]
    intro f hfm
    simp only [isync_timeline_forward, ht, if_true, hmod, isync_scan_fst,
      List.mem_filter] at hfm
    intro hts
    have := hfm.2
    rw [hts, hgsl_ts_ge_refl] at this
    simp at this

/-- Witness for C12: a registered timeline at 0xFFFFFFFF; the default
target wraps to 0. -/
theorem isync_default_target_ahead_witness :
    isync_timeline_get ⟨[⟨3, [], 9, 0xFFFFFFFF⟩]⟩ 3 = some ⟨3, [], 9, 0xFFFFFFFF⟩ ∧
    isync_timeline_fence_create ⟨3, [], 9, 0xFFFFFFFF⟩ 0 false =
      (⟨fence_state.unsignaled, 0⟩, ⟨3, [⟨fence_state.unsignaled, 0⟩], 9, 0xFFFFFFFF⟩) ∧
    (isync_timeline_forward (isync_timeline_fence_create ⟨3, [], 9, 0xFFFFFFFF⟩ 0 false).2
      ((0xFFFFFFFF + 1) % 2 ^ 32)).last_ts = (0xFFFFFFFF + 1) % 2 ^ 32 :=
  ⟨by decide, by decide,
   (isync_default_target_ahead ⟨[⟨3, [], 9, 0xFFFFFFFF⟩]⟩ 3 0 ⟨3, [], 9, 0xFFFFFFFF⟩
      (by decide)).2.2.2.2.2.1⟩

end Hgsl

namespace Rpmb

/-! ## rpmb_cmd_fixup -/

/-- The loop keeps the number of commands. -/
theorem rpmb_cmd_fixup_loop_length (K : rpmb_consts) (cs : List rpmb_cmd) :
    ∀ n, (rpmb_cmd_fixup_loop K cs n).length = cs.length := by
  induction cs with
  | nil => intro n; simp [rpmb_cmd_fixup_loop]
  | cons c rest ih =>
    intro n
    cases n with
    | zero => simp [rpmb_cmd_fixup_loop]
    | succ m => simp [rpmb_cmd_fixup_loop, ih m]

/-- The loop rewrites the command at position `i` exactly when `i < ncmds`. -/
theorem rpmb_cmd_fixup_loop_get (K : rpmb_consts) (cs : List rpmb_cmd) :
    ∀ n i, (rpmb_cmd_fixup_loop K cs n)[i]? =
      (cs[i]?).map (fun c => if i < n then rpmb_cmd_fixup_one K c else c) := by
  induction cs with
  | nil => intro n i; simp [rpmb_cmd_fixup_loop]
  | cons c rest ih =>
    intro n i
    cases n with
    | zero => simp [rpmb_cmd_fixup_loop]
    | succ m =>
      cases i with
      | zero => simp [rpmb_cmd_fixup_loop]
      | succ j => simp [rpmb_cmd_fixup_loop, ih m j]

/-- What the loop body does to one command, field by field. -/
theorem rpmb_cmd_fixup_one_fields (K : rpmb_consts) (c : rpmb_cmd) :
    (rpmb_cmd_fixup_one K c).flags = c.flags ∧
    (rpmb_cmd_fixup_one K c).nframes = c.nframes ∧
    (rpmb_cmd_fixup_one K c).frames.length = c.frames.length ∧
    (rpmb_cmd_fixup_one K c).frames.tail = c.frames.tail ∧
    (∀ f, c.frames.head? = some f →
      ∃ f2, (rpmb_cmd_fixup_one K c).frames.head? = some f2 ∧
        f2.stuff = f.stuff ∧ f2.key_mac = f.key_mac ∧ f2.data = f.data ∧
        f2.nonce = f.nonce ∧ f2.write_counter = f.write_counter ∧ f2.addr = f.addr ∧
        f2.result = f.result ∧ f2.req_resp = f.req_resp ∧
        f2.block_count =
          if f.req_resp = K.cpu_to_be16 K.RPMB_READ_DATA then 0 else f.block_count) := by
  unfold rpmb_cmd_fixup_one
  cases hfr : c.frames with
  | nil => simp [hfr]
  | cons f more =>
    by_cases h : f.req_resp = K.cpu_to_be16 K.RPMB_READ_DATA
    · simp [h, hfr]
    · simp [h, hfr]

/-- C13: the command list `rpmb_cmd_seq` hands to the device's `cmd_seq`
operation has the caller's commands, each with its flags, frame count and
frames after the first unchanged; the first frame of a command keeps every
field but `block_count`, which becomes 0 exactly when the device's hardware
type is eMMC, the command is among the `ncmds` commands of the call and the
frame's `req_resp` is big-endian `RPMB_READ_DATA`, and is unchanged
otherwise.  For a device that is not eMMC the list is the caller's list. -/
theorem rpmb_cmd_seq_fixup_effect (K : rpmb_consts) (d : rpmb_dev) (ops : rpmb_ops)
    (op : Nat → Nat → List rpmb_cmd → Nat → Int × List rpmb_cmd)
    (cs : List rpmb_cmd) (ncmds : Nat)
    (hn : ncmds ≠ 0) (hops : d.ops = some ops) (hop : ops.cmd_seq = some op) :
    ∃ handed,
      (rpmb_cmd_seq K (some d) (some cs) ncmds).dev_calls =
        [⟨d.parent, d.target, handed, ncmds⟩] ∧
      handed.length = cs.length ∧
      (K.RPMB_TYPE_HW ops.type ≠ K.RPMB_TYPE_EMMC → handed = cs) ∧
      (∀ (i : Nat) (c : rpmb_cmd), cs[i]? = some c →
        ∃ c2, handed[i]? = some c2 ∧
          c2.flags = c.flags ∧ c2.nframes = c.nframes ∧
          c2.frames.length = c.frames.length ∧ c2.frames.tail = c.frames.tail ∧
          (∀ f, c.frames.head? = some f →
            ∃ f2, c2.frames.head? = some f2 ∧
              f2.stuff = f.stuff ∧ f2.key_mac = f.key_mac ∧ f2.data = f.data ∧
              f2.nonce = f.nonce ∧ f2.write_counter = f.write_counter ∧
              f2.addr = f.addr ∧ f2.result = f.result ∧ f2.req_resp = f.req_resp ∧
              f2.block_count =
                if K.RPMB_TYPE_HW ops.type = K.RPMB_TYPE_EMMC ∧ i < ncmds ∧
                    f.req_resp = K.cpu_to_be16 K.RPMB_READ_DATA
                then 0 else f.block_count)) := by
  refine ⟨rpmb_cmd_fixup K ops cs ncmds, ?_, ?_, ?_, ?_⟩
  · simp [rpmb_cmd_seq, hn, hops, hop]
  · unfold rpmb_cmd_fixup
    split
    · rfl
    · exact rpmb_cmd_fixup_loop_length K cs ncmds
  · intro h
    simp [rpmb_cmd_fixup, h]
  · intro i c hc
    by_cases hemmc : K.RPMB_TYPE_HW ops.type = K.RPMB_TYPE_EMMC
    · by_cases hi : i < ncmds
      · refine ⟨rpmb_cmd_fixup_one K c, ?_, ?_⟩
        · simp [rpmb_cmd_fixup, hemmc, rpmb_cmd_fixup_loop_get, hc, hi]
        · simpa [hemmc, hi] using rpmb_cmd_fixup_one_fields K c
      · refine ⟨c, ?_, rfl, rfl, rfl, rfl, ?_⟩
        · simp [rpmb_cmd_fixup, hemmc, rpmb_cmd_fixup_loop_get, hc, hi]
        · intro f hf
          exact ⟨f, hf, rfl, rfl, rfl, rfl, rfl, rfl, rfl, rfl, by simp [hi]⟩
    · refine ⟨c, ?_, rfl, rfl, rfl, rfl, ?_⟩
      · simp [rpmb_cmd_fixup, hemmc, hc]
      · intro f hf
        exact ⟨f, hf, rfl, rfl, rfl, rfl, rfl, rfl, rfl, rfl, by simp [hemmc]⟩

/-- Witness for C13: a simulated eMMC device and the two sample commands;
only the read request has its `block_count` cleared. -/
theorem rpmb_cmd_seq_fixup_effect_witness :
    (∃ handed,
      (rpmb_cmd_seq linux_consts (some sample_emmc_dev) (some sample_cmds) 2).dev_calls =
        [⟨10, 0, handed, 2⟩] ∧ handed.length = 2) ∧
    (rpmb_cmd_seq linux_consts (some sample_emmc_dev) (some sample_cmds) 2).dev_calls =
      [⟨10, 0,
        [ { flags := 1, nframes := 1,
            frames := [⟨[], [], [], [], 0, 0, 0, 0, 0x0400⟩] },
          { flags := 1, nframes := 1,
            frames := [⟨[], [], [], [], 0, 0, 0x0100, 0, 0x0300⟩] } ], 2⟩] :=
  ⟨(rpmb_cmd_seq_fixup_effect linux_consts sample_emmc_dev sample_emmc_ops
      sample_cmd_seq_op sample_cmds 2 (by decide) rfl rfl).imp
      (fun _ h => ⟨h.1, h.2.1⟩),
   by decide⟩

end Rpmb

namespace VirtioVideo

/-! ## Compatible formats -/

/-- For a position inside the word and a 64-bit mask, `test_bit` reads the
bit of the mask. -/
theorem test_bit_iff (k mask : Nat) (hk : k < 64) (hm : mask < 2 ^ 64) :
    test_bit k mask = true ↔ mask / 2 ^ k % 2 = 1 := by
  have hmm : mask % 2 ^ 64 = mask := Nat.mod_eq_of_lt hm
  unfold test_bit BITS_PER_LONG
  rw [hmm]
  simp [hk]

/-- No entry found by `virtio_video_find_video_format` when none has the
format code. -/
theorem find_video_format_none (l : List video_format) (format : Nat)
    (h : ∀ g ∈ l, g.desc.format ≠ format) :
    virtio_video_find_video_format l format = none := by
  induction l with
  | nil => rfl
  | cons x rest ih =>
    have hx := h x (by simp)
    simp only [virtio_video_find_video_format, if_neg hx]
    exact ih (fun g hg => h g (by simp [hg]))

/-- The entry `virtio_video_find_video_format` returns is the first one with
the format code. -/
theorem find_video_format_first (l : List video_format) (format : Nat) :
    ∀ f, first_with_format l format f →
      virtio_video_find_video_format l format = some f := by
  induction l with
  | nil =>
    rintro f ⟨i, hi, _⟩
    simp at hi
  | cons x rest ih =>
    rintro f ⟨i, hi, hf, hmin⟩
    cases i with
    | zero =>
      simp only [List.getElem?_cons_zero, Option.some.injEq] at hi
      subst hi
      simp [virtio_video_find_video_format, hf]
    | succ j =>
      have hx : x.desc.format ≠ format := hmin 0 x (Nat.succ_pos j) (by simp)
      simp only [virtio_video_find_video_format, if_neg hx]
      apply ih
      refine ⟨j, by simpa using hi, hf, ?_⟩
      intro j2 g hj2 hg
      exact hmin (j2 + 1) g (Nat.succ_lt_succ hj2) (by simpa using hg)

/-- The loop returns nothing when no position passes both tests. -/
theorem find_compatible_loop_none (mask req : Nat) (l : List video_format) :
    ∀ n, (∀ (k : Nat) (fmt : video_format), l[k]? = some fmt →
        ¬ (test_bit (n + k) mask = true ∧ fmt.desc.format = req)) →
      find_compatible_loop mask req l n = none := by
  induction l with
  | nil => intro n _; rfl
  | cons x rest ih =>
    intro n h
    have hx := h 0 x (by simp)
    have hrest : find_compatible_loop mask req rest (n + 1) = none := by
      apply ih
      intro k fmt hk
      have := h (k + 1) fmt (by simpa using hk)
      rwa [show n + (k + 1) = n + 1 + k by omega] at this
    simp only [find_compatible_loop, hrest]
    by_cases hb : test_bit n mask = true
    · have hne : x.desc.format ≠ req := fun he => hx ⟨by simpa using hb, he⟩
      simp [hb, hne]
    · simp [hb]

/-- The loop returns the entry at the first position passing both tests. -/
theorem find_compatible_loop_first (mask req : Nat) (l : List video_format) :
    ∀ (n k : Nat) (fmt : video_format), l[k]? = some fmt →
      test_bit (n + k) mask = true → fmt.desc.format = req →
      (∀ (j : Nat) (g : video_format), j < k → l[j]? = some g →
        ¬ (test_bit (n + j) mask = true ∧ g.desc.format = req)) →
      find_compatible_loop mask req l n = some fmt := by
  induction l with
  | nil =>
    intro n k fmt hk
    simp at hk
  | cons x rest ih =>
    intro n k fmt hk hbit hfmt hmin
    cases k with
    | zero =>
      simp only [List.getElem?_cons_zero, Option.some.injEq] at hk
      subst hk
      have hb : test_bit n mask = true := by simpa using hbit
      simp [find_compatible_loop, hb, hfmt]
    | succ j =>
      have hx := hmin 0 x (Nat.succ_pos j) (by simp)
      have hrest : find_compatible_loop mask req rest (n + 1) = some fmt := by
        apply ih (n + 1) j fmt (by simpa using hk)
        · rwa [show n + 1 + j = n + (j + 1) by omega]
        · exact hfmt
        · intro j2 g hj2 hg
          have := hmin (j2 + 1) g (Nat.succ_lt_succ hj2) (by simpa using hg)
          rwa [show n + (j2 + 1) = n + 1 + j2 by omega] at this
      simp only [find_compatible_loop, hrest]
      by_cases hb : test_bit n mask = true
      · have hne : x.desc.format ≠ req := fun he => hx ⟨by simpa using hb, he⟩
        simp [hb, hne]
      · simp [hb]

/-- The lookup through one list into the other gives the result described
in `compatible_result`, for at most 64 entries in the list searched and
64-bit masks. -/
theorem compatible_result_lookup (src dst : List video_format) (cur req : Nat)
    (hdst : dst.length ≤ 64) (hmask : ∀ f ∈ src, f.desc.mask < 2 ^ 64) :
    compatible_result src dst cur req
      (match virtio_video_find_video_format src cur with
       | none => none
       | some fmt => find_compatible_loop fmt.desc.mask req dst 0) := by
  refine ⟨?_, ?_⟩
  · intro h
    rw [find_video_format_none src cur h]
  · intro f0 hf0
    rw [find_video_format_first src cur f0 hf0]
    have hm : f0.desc.mask < 2 ^ 64 := by
      obtain ⟨i, hi, _⟩ := hf0
      exact hmask f0 (List.getElem?_mem hi)
    have hlt : ∀ (k : Nat) (g : video_format), dst[k]? = some g → k < 64 := by
      intro k g hk
      obtain ⟨h, _⟩ := List.getElem?_eq_some.1 hk
      omega
    refine ⟨?_, ?_⟩
    · rintro k fmt ⟨hk, hbit, hfmt⟩ hmin
      apply find_compatible_loop_first _ _ _ 0 k fmt hk
      · rw [Nat.zero_add]
        exact (test_bit_iff k _ (hlt k fmt hk) hm).2 hbit
      · exact hfmt
      · intro j g _ hg hboth
        rw [Nat.zero_add] at hboth
        have hj : j < 64 := hlt j g hg
        exact hmin j g (by assumption)
          ⟨hg, (test_bit_iff j _ hj hm).1 hboth.1, hboth.2⟩
    · intro hnone
      apply find_compatible_loop_none
      intro k fmt hk hboth
      rw [Nat.zero_add] at hboth
      exact hnone k fmt ⟨hk, (test_bit_iff k _ (hlt k fmt hk) hm).1 hboth.1, hboth.2⟩

/-- C14: `virtio_video_find_compatible_output_format` returns NULL when the
stream's current input format code is not in the input format list;
otherwise, with the mask of the first input format having that code, it
returns the format at the first position `k` of the output format list such
that bit `k` of the mask is set and the format's code is the requested one,
and NULL when there is no such position; for lists of at most 64 formats and
64-bit masks.  `virtio_video_find_compatible_input_format` does the same
with the two lists and the stream's two infos swapped. -/
theorem find_compatible_format_result (stream : virtio_video_stream) (req : Nat)
    (hin : stream.video_dev.input_fmt_list.length ≤ 64)
    (hout : stream.video_dev.output_fmt_list.length ≤ 64)
    (hmask : ∀ f ∈ stream.video_dev.input_fmt_list ++ stream.video_dev.output_fmt_list,
      f.desc.mask < 2 ^ 64) :
    compatible_result stream.video_dev.input_fmt_list stream.video_dev.output_fmt_list
      stream.in_info.fourcc_format req
      (virtio_video_find_compatible_output_format stream req) ∧
    compatible_result stream.video_dev.output_fmt_list stream.video_dev.input_fmt_list
      stream.out_info.fourcc_format req
      (virtio_video_find_compatible_input_format stream req) :=
  ⟨compatible_result_lookup _ _ _ _ hout
      (fun f hf => hmask f (List.mem_append_left _ hf)),
   compatible_result_lookup _ _ _ _ hin
      (fun f hf => hmask f (List.mem_append_right _ hf))⟩

/-- Witness for C14: on the sample stream (input format 0x1002, mask 0x6) a
request for format 4 skips output position 0, whose bit is clear, and returns
the entry at position 2; a request for format 5 on the input side finds
nothing compatible. -/
theorem find_compatible_format_result_witness :
    compatible_result sample_stream.video_dev.input_fmt_list
      sample_stream.video_dev.output_fmt_list sample_stream.in_info.fourcc_format 4
      (virtio_video_find_compatible_output_format sample_stream 4) ∧
    virtio_video_find_compatible_output_format sample_stream 4 = some ⟨⟨0x2, 4, 1⟩⟩ ∧
    virtio_video_find_compatible_input_format sample_stream 0x1001 = none :=
  ⟨(find_compatible_format_result sample_stream 4 (by decide) (by decide)
      (by decide)).1,
   by decide, by decide⟩

end VirtioVideo
